import Mathlib

/-!
Verification of the order monitoring and state-tracking engine of a
notification bot (RetailCRM → Telegram bridge).

Shallow embedding conventions:
* The SQLite table `processed_orders` (src/database/db_service.py) is modelled
  as a list of `ProcessedOrderRecord` rows; the `order_id UNIQUE` constraint is
  carried as a `Nodup` hypothesis where a proof needs it.  Timestamp columns
  are not modelled (no claim mentions them); `total_sum REAL` is modelled as
  `Option Int` since no claim computes with sums.
* Each Python DB method becomes a pure function from the table to the table
  (plus its `bool` result where the source returns one).  The `except` paths
  that only log and return a default are not modelled: no claim is about a DB
  operation raising.
* Strings are Lean `String`s; where a proof needs character-level reasoning
  (callback payload parsing) the function is embedded over `List Char`.
-/

namespace TgBotGbc

/-- One row of the `processed_orders` table
(src/database/db_service.py, `_init_database`). -/
structure ProcessedOrderRecord where
  order_id : Nat
  order_number : String
  status : String
  total_sum : Option Int
  customer_name : Option String
  warehouse_code : Option String
  delivery_type : Option String
  was_in_no_product : Bool
  returned_from_no_product : Bool
  bouquet_ready_notified : Bool
  deriving DecidableEq, Repr

/-- The `processed_orders` table. -/
abbrev Ledger := List ProcessedOrderRecord

/-- `SELECT * FROM processed_orders WHERE order_id = ?` (first row).
Analysis-side observation used by several source methods. -/
def db_lookup (L : Ledger) (order_id : Nat) : Option ProcessedOrderRecord :=
  List.find? (fun r => r.order_id == order_id) L

/-- `DatabaseService.is_order_processed`: `SELECT COUNT(*) ... WHERE
order_id = ?` then `count > 0`. -/
def is_order_processed (L : Ledger) (order_id : Nat) : Bool :=
  decide (0 < List.countP (fun r => r.order_id == order_id) L)

/-- `DatabaseService.save_processed_order`: `INSERT OR REPLACE INTO
processed_orders (order_id, order_number, status, total_sum, customer_name,
warehouse_code, delivery_type, was_in_no_product, returned_from_no_product,
updated_at) VALUES (?,?,?,?,?,?,?,0,0,CURRENT_TIMESTAMP)`.  SQLite REPLACE
deletes any row with the same unique `order_id` and inserts the new row; the
columns absent from the insert list (`bouquet_ready_notified`) take their
declared DEFAULT 0.  The source returns True on success (the exception path is
not modelled). -/
def save_processed_order (L : Ledger) (order_id : Nat) (order_number status : String)
    (delivery_type : Option String) (total_sum : Option Int)
    (customer_name warehouse_code : Option String) : Ledger :=
  List.filter (fun r => !(r.order_id == order_id)) L ++
    [{ order_id := order_id
       order_number := order_number
       status := status
       total_sum := total_sum
       customer_name := customer_name
       warehouse_code := warehouse_code
       delivery_type := delivery_type
       was_in_no_product := false
       returned_from_no_product := false
       bouquet_ready_notified := false }]

/-- `DatabaseService.mark_order_in_no_product`: `UPDATE processed_orders SET
was_in_no_product = 1 WHERE order_id = ?`; returns True with no check of
`cursor.rowcount`. -/
def mark_order_in_no_product (L : Ledger) (order_id : Nat) : Bool × Ledger :=
  (true, List.map (fun r =>
    if r.order_id == order_id then { r with was_in_no_product := true } else r) L)

/-- `DatabaseService.mark_order_returned_from_no_product`: `UPDATE
processed_orders SET returned_from_no_product = 1 WHERE order_id = ?`;
returns True with no check of `cursor.rowcount`. -/
def mark_order_returned_from_no_product (L : Ledger) (order_id : Nat) : Bool × Ledger :=
  (true, List.map (fun r =>
    if r.order_id == order_id then { r with returned_from_no_product := true } else r) L)

/-- `DatabaseService.mark_bouquet_ready_notified`: same UPDATE shape but the
result is `cursor.rowcount > 0`. -/
def mark_bouquet_ready_notified (L : Ledger) (order_id : Nat) : Bool × Ledger :=
  (decide (0 < List.countP (fun r => r.order_id == order_id) L),
   List.map (fun r =>
     if r.order_id == order_id then { r with bouquet_ready_notified := true } else r) L)

/-- `DatabaseService.reset_order_for_renotification`: select the row; if it is
absent or `was_in_no_product` is falsy, return False without touching the
table; otherwise `DELETE ... WHERE order_id = ?` and return
`cursor.rowcount > 0`. -/
def reset_order_for_renotification (L : Ledger) (order_id : Nat) : Bool × Ledger :=
  match List.find? (fun r => r.order_id == order_id) L with
  | none => (false, L)
  | some r =>
    if r.was_in_no_product = false then (false, L)
    else
      (decide (0 < List.countP (fun q => q.order_id == order_id) L),
       List.filter (fun q => !(q.order_id == order_id)) L)

/-- `DatabaseService.get_all_processed_orders` returns every row (the
`ORDER BY created_at DESC` ordering is irrelevant to the claims and is not
modelled). -/
def get_all_processed_orders (L : Ledger) : List ProcessedOrderRecord := L

/-! ### Basic lemmas about the table operations -/

theorem db_lookup_eq_some_of_mem_nodup {L : Ledger} {r : ProcessedOrderRecord}
    (hnd : (List.map ProcessedOrderRecord.order_id L).Nodup) (hr : r ∈ L) :
    db_lookup L r.order_id = some r := by
  induction L with
  | nil => cases hr
  | cons h t ih =>
    rcases List.mem_cons.mp hr with rfl | hmem
    · simp [db_lookup]
    · have hne : h.order_id ≠ r.order_id := by
        intro he
        have : r.order_id ∈ List.map ProcessedOrderRecord.order_id t :=
          List.mem_map_of_mem _ hmem
        rw [List.map_cons, List.nodup_cons] at hnd
        exact hnd.1 (he ▸ this)
      have ht : (List.map ProcessedOrderRecord.order_id t).Nodup := by
        rw [List.map_cons, List.nodup_cons] at hnd
        exact hnd.2
      have hbeq : (h.order_id == r.order_id) = false := by
        simpa using hne
      simpa [db_lookup, List.find?_cons, hbeq] using ih ht hmem

theorem is_order_processed_iff {L : Ledger} {id : Nat} :
    is_order_processed L id = true ↔ ∃ r ∈ L, r.order_id = id := by
  simp [is_order_processed, List.countP_pos_iff]

theorem db_lookup_eq_none_iff {L : Ledger} {id : Nat} :
    db_lookup L id = none ↔ ∀ r ∈ L, r.order_id ≠ id := by
  simp [db_lookup, List.find?_eq_none]

theorem is_order_processed_of_lookup {L : Ledger} {id : Nat}
    {r : ProcessedOrderRecord} (h : db_lookup L id = some r) :
    is_order_processed L id = true := by
  have hmem := List.mem_of_find?_eq_some h
  have hkey := List.find?_some h
  exact is_order_processed_iff.mpr ⟨r, hmem, by simpa using hkey⟩

theorem db_lookup_filter_self (L : Ledger) (id : Nat) :
    db_lookup (List.filter (fun q => !(q.order_id == id)) L) id = none := by
  rw [db_lookup_eq_none_iff]
  intro r hr
  have h := (List.mem_filter.mp hr).2
  simpa using h

theorem db_lookup_save_same (L : Ledger) (id : Nat) (n s : String)
    (dt : Option String) (ts : Option Int) (cn wc : Option String) :
    db_lookup (save_processed_order L id n s dt ts cn wc) id =
      some { order_id := id, order_number := n, status := s, total_sum := ts,
             customer_name := cn, warehouse_code := wc, delivery_type := dt,
             was_in_no_product := false, returned_from_no_product := false,
             bouquet_ready_notified := false } := by
  unfold save_processed_order db_lookup
  rw [List.find?_append]
  have h := db_lookup_filter_self L id
  unfold db_lookup at h
  rw [h]
  simp

theorem find?_filter_of_imp {α : Type} (p q : α → Bool) (L : List α)
    (himp : ∀ r, p r = true → q r = true) :
    List.find? p (L.filter q) = List.find? p L := by
  induction L with
  | nil => rfl
  | cons h t ih =>
    rw [List.filter_cons]
    by_cases hq : q h = true
    · rw [if_pos hq]
      cases hp : p h <;> simp [List.find?_cons, hp, ih]
    · have hp : p h = false := by
        cases hp : p h
        · rfl
        · exact absurd (himp h hp) hq
      rw [if_neg hq]
      simp [List.find?_cons, hp, ih]

theorem db_lookup_save_other (L : Ledger) (id id' : Nat) (hne : id' ≠ id)
    (n s : String) (dt : Option String) (ts : Option Int) (cn wc : Option String) :
    db_lookup (save_processed_order L id n s dt ts cn wc) id' = db_lookup L id' := by
  unfold save_processed_order db_lookup
  rw [List.find?_append]
  have hfil := find?_filter_of_imp (fun r => r.order_id == id')
      (fun q => !(q.order_id == id)) L (by
        intro r hr
        have : r.order_id = id' := by simpa using hr
        simp [this, hne])
  rw [hfil]
  have hnew : ((id : Nat) == id') = false := by
    simpa using Ne.symm hne
  cases hfind : List.find? (fun r => r.order_id == id') L with
  | some r => rfl
  | none => simp [List.find?_cons, hnew]

/-- The fresh row that `save_processed_order` writes. -/
def saved_row (id : Nat) (n s : String) (dt : Option String) (ts : Option Int)
    (cn wc : Option String) : ProcessedOrderRecord :=
  { order_id := id, order_number := n, status := s, total_sum := ts,
    customer_name := cn, warehouse_code := wc, delivery_type := dt,
    was_in_no_product := false, returned_from_no_product := false,
    bouquet_ready_notified := false }

/-! ### C2 — save_processed_order and the no-product flags -/

/-- A ledger holding order 7 already flagged `was_in_no_product` and
`returned_from_no_product`. -/
def c2_before : Ledger :=
  [{ order_id := 7, order_number := "N7", status := "old-status",
     total_sum := some 100, customer_name := none, warehouse_code := some "20",
     delivery_type := none, was_in_no_product := true,
     returned_from_no_product := true, bouquet_ready_notified := false }]

/-- C2: the claim says the upsert re-zeroes `was_in_no_product` /
`returned_from_no_product` only on the first insert of an order_id and leaves
them unchanged on an update of an existing row.  The code's
`INSERT OR REPLACE ... VALUES (..., 0, 0, ...)` writes literal zeros on every
call: updating the already-flagged row of order 7 zeroes both flags.  The
general conjunct shows the flags are zeroed after every call, whether or not a
row for that order_id existed. -/
theorem save_processed_order_rezeroes_flags_on_update :
    db_lookup (save_processed_order c2_before 7 "N7" "new-status" none (some 100)
        none (some "20")) 7 =
      some (saved_row 7 "N7" "new-status" none (some 100) none (some "20"))
    ∧ (saved_row 7 "N7" "new-status" none (some 100) none (some "20")).was_in_no_product = false
    ∧ (saved_row 7 "N7" "new-status" none (some 100) none (some "20")).returned_from_no_product = false
    ∧ (c2_before.head?.map ProcessedOrderRecord.was_in_no_product = some true
       ∧ c2_before.head?.map ProcessedOrderRecord.returned_from_no_product = some true)
    ∧ (∀ L id n s dt ts cn wc, ∃ r, db_lookup (save_processed_order L id n s dt ts cn wc) id = some r
        ∧ r.was_in_no_product = false ∧ r.returned_from_no_product = false) := by
  refine ⟨by decide, rfl, rfl, ⟨rfl, rfl⟩, ?_⟩
  intro L id n s dt ts cn wc
  exact ⟨_, db_lookup_save_same L id n s dt ts cn wc, rfl, rfl⟩

/-! ### C4 — reset_order_for_renotification guard -/

/-- C4: `reset_order_for_renotification` deletes the order's row and returns
true exactly when a stored row exists with `was_in_no_product = true`; in
every other case it returns false and leaves the table unchanged. -/
theorem reset_order_for_renotification_guard (L : Ledger) (id : Nat) :
    ((reset_order_for_renotification L id).1 = true ↔
        ∃ r, db_lookup L id = some r ∧ r.was_in_no_product = true)
    ∧ ((reset_order_for_renotification L id).1 = false →
        (reset_order_for_renotification L id).2 = L)
    ∧ ((reset_order_for_renotification L id).1 = true →
        ∀ q, q ∈ (reset_order_for_renotification L id).2 ↔ q ∈ L ∧ q.order_id ≠ id) := by
  unfold reset_order_for_renotification
  cases hfind : List.find? (fun r => r.order_id == id) L with
  | none =>
    refine ⟨⟨fun h => absurd h (by simp), ?_⟩, fun _ => rfl, fun h => absurd h (by simp)⟩
    rintro ⟨r, hr, -⟩
    rw [db_lookup, hfind] at hr
    exact absurd hr (by simp)
  | some r =>
    by_cases hwas : r.was_in_no_product = false
    · simp only [hwas, if_pos rfl]
      refine ⟨⟨fun h => absurd h (by simp), ?_⟩, fun _ => rfl, fun h => absurd h (by simp)⟩
      rintro ⟨r', hr', hw⟩
      rw [db_lookup, hfind] at hr'
      cases hr'
      rw [hw] at hwas
      exact absurd hwas (by simp)
    · have hmem := List.mem_of_find?_eq_some hfind
      have hkey := List.find?_some hfind
      have hcount : 0 < List.countP (fun q => q.order_id == id) L :=
        List.countP_pos_iff.mpr ⟨r, hmem, hkey⟩
      simp only [if_neg hwas, hcount, decide_eq_true_eq]
      refine ⟨⟨fun _ => ⟨r, by rw [db_lookup, hfind], by simpa using hwas⟩, fun _ => by simp [hcount]⟩,
        fun hfalse => absurd hfalse (by simp [hcount]), fun _ q => ?_⟩
      rw [List.mem_filter]
      constructor
      · rintro ⟨hq, hne⟩
        exact ⟨hq, by simpa using hne⟩
      · rintro ⟨hq, hne⟩
        exact ⟨hq, by simpa using hne⟩

/-- Row 5 of the C4 witness ledger: was in no-product. -/
def c4_row5 : ProcessedOrderRecord :=
  { order_id := 5, order_number := "N5", status := "s", total_sum := none,
    customer_name := none, warehouse_code := none, delivery_type := none,
    was_in_no_product := true, returned_from_no_product := false,
    bouquet_ready_notified := false }

/-- Row 6 of the C4 witness ledger: never in no-product. -/
def c4_row6 : ProcessedOrderRecord :=
  { order_id := 6, order_number := "N6", status := "s", total_sum := none,
    customer_name := none, warehouse_code := none, delivery_type := none,
    was_in_no_product := false, returned_from_no_product := false,
    bouquet_ready_notified := false }

/-- A ledger for the C4 witness: order 5 was in no-product, order 6 was not. -/
def c4_ledger : Ledger := [c4_row5, c4_row6]

theorem reset_order_for_renotification_guard_witness :
    (reset_order_for_renotification c4_ledger 5).1 = true
    ∧ (reset_order_for_renotification c4_ledger 6).2 = c4_ledger
    ∧ (reset_order_for_renotification c4_ledger 9).2 = c4_ledger := by
  refine ⟨?_, ?_, ?_⟩
  · exact (reset_order_for_renotification_guard c4_ledger 5).1.mpr
      ⟨c4_row5, by decide, by decide⟩
  · exact (reset_order_for_renotification_guard c4_ledger 6).2.1 (by decide)
  · exact (reset_order_for_renotification_guard c4_ledger 9).2.1 (by decide)

/-! ### C10 — marker return values when no row exists -/

/-- C10: with no row for the order_id, the two no-product markers still return
true (the source never inspects `cursor.rowcount` there) while
`mark_bouquet_ready_notified` returns false (it checks `rowcount > 0`); in all
three cases the table is unchanged, so a true result from the two no-product
markers does not imply a flag was set. -/
theorem no_product_markers_true_without_row (L : Ledger) (id : Nat)
    (h : db_lookup L id = none) :
    mark_order_in_no_product L id = (true, L)
    ∧ mark_order_returned_from_no_product L id = (true, L)
    ∧ mark_bouquet_ready_notified L id = (false, L) := by
  have hall : ∀ r ∈ L, r.order_id ≠ id := db_lookup_eq_none_iff.mp h
  have hmap : ∀ (f : ProcessedOrderRecord → ProcessedOrderRecord),
      List.map (fun r => if r.order_id == id then f r else r) L = L := by
    intro f
    conv_rhs => rw [← List.map_id L]
    refine List.map_congr_left ?_
    intro r hr
    simp [hall r hr]
  have hcount : List.countP (fun r => r.order_id == id) L = 0 := by
    rw [List.countP_eq_zero]
    intro r hr
    simpa using hall r hr
  refine ⟨?_, ?_, ?_⟩
  · unfold mark_order_in_no_product
    rw [hmap]
  · unfold mark_order_returned_from_no_product
    rw [hmap]
  · unfold mark_bouquet_ready_notified
    rw [hmap, hcount]
    rfl

theorem no_product_markers_true_without_row_witness :
    mark_order_in_no_product c4_ledger 9 = (true, c4_ledger)
    ∧ mark_order_returned_from_no_product c4_ledger 9 = (true, c4_ledger)
    ∧ mark_bouquet_ready_notified c4_ledger 9 = (false, c4_ledger) :=
  no_product_markers_true_without_row c4_ledger 9 (by decide)

/-! ## Rate limiter (src/services/rate_limiter.py)

The Redis backing store is modelled as an association list from key to
(counter value, optional absolute expiry deadline); a key whose deadline `d`
satisfies `¬ now < d` behaves as absent (Redis removes expired keys).  The
three connection situations of `RateLimiter.check_rate_limit` are modelled by
`RedisHandle`: `offline` is `self.redis is None` (connection never
established), `erroring` is a connected client whose operations raise
`redis.RedisError`/`Exception` (both `except` arms return the same fallback),
and `client s` is a working store. -/

abbrev KVStore := List (String × Nat × Option Nat)

/-- Is a (possibly expiring) entry still alive at `now`? -/
def kvIsLive (now : Nat) : Option Nat → Bool
  | none => true
  | some d => decide (now < d)

/-- Redis GET-like read of counter + deadline; expired entries are absent. -/
def redisGet (now : Nat) (s : KVStore) (k : String) : Option (Nat × Option Nat) :=
  match List.find? (fun e => e.1 == k) s with
  | none => none
  | some e => if kvIsLive now e.2.2 then some e.2 else none

/-- Redis INCR: creates the key with value 1 (and no TTL) when absent or
expired, otherwise increments, keeping the TTL. -/
def redisIncr (now : Nat) (s : KVStore) (k : String) : Nat × KVStore :=
  match redisGet now s k with
  | some (c, d) => (c + 1, List.map (fun e => if e.1 == k then (k, c + 1, d) else e) s)
  | none => (1, (k, 1, none) :: List.filter (fun e => !(e.1 == k)) s)

/-- Redis EXPIRE: set the key's deadline to `now + window`. -/
def redisExpire (now : Nat) (s : KVStore) (k : String) (window : Nat) : KVStore :=
  List.map (fun e => if e.1 == k then (e.1, e.2.1, some (now + window)) else e) s

inductive RedisHandle where
  | offline : RedisHandle
  | erroring : RedisHandle
  | client : KVStore → RedisHandle
  deriving DecidableEq

/-- `RateLimiter._get_key` with the default prefix. -/
def rl_key (action identifier : String) : String :=
  "rate_limit" ++ ":" ++ action ++ ":" ++ identifier

/-- `RateLimiter.check_rate_limit`: fallback `(False, limit)` when the client
is absent or any store operation raises; otherwise INCR, set the expiry iff
the post-increment value is 1, and return
`(current > limit, max(0, limit - current))` (the `max` is what Python's
`max(0, limit - current)` computes, which over ℕ is `limit - current`). -/
def check_rate_limit (h : RedisHandle) (now : Nat) (identifier action : String)
    (limit window : Nat) : (Bool × Nat) × RedisHandle :=
  match h with
  | .offline => ((false, limit), .offline)
  | .erroring => ((false, limit), .erroring)
  | .client s =>
    let k := rl_key action identifier
    let ic := redisIncr now s k
    let s2 := if ic.1 = 1 then redisExpire now ic.2 k window else ic.2
    ((decide (limit < ic.1), limit - ic.1), .client s2)

/-- Run `check_rate_limit` once per entry of `times` (the call instants),
threading the store and collecting the results. -/
def rl_call_seq (h : RedisHandle) (times : List Nat) (identifier action : String)
    (limit window : Nat) : List (Bool × Nat) × RedisHandle :=
  match times with
  | [] => ([], h)
  | t :: ts =>
    let r := check_rate_limit h t identifier action limit window
    let rest := rl_call_seq r.2 ts identifier action limit window
    (r.1 :: rest.1, rest.2)

theorem find?_key_map (s : KVStore) (k : String)
    (f : String × Nat × Option Nat → String × Nat × Option Nat)
    (hf : ∀ e, (f e).1 = e.1) :
    List.find? (fun e => e.1 == k) (s.map f) = (List.find? (fun e => e.1 == k) s).map f := by
  induction s with
  | nil => rfl
  | cons h t ih =>
    cases hk : (h.1 == k) with
    | true => simp [List.find?_cons, hf, hk]
    | false => simp [List.find?_cons, hf, hk, ih]

/-! ### C6 — fixed-window counter semantics -/

/-- C6: the concrete conjuncts replay the spec scenario (limit 5, window 60):
six calls at time 0 produce `remaining` 4,3,2,1,0 then `(true, 0)`, the store
afterwards holds the single counter key with value 6 and deadline 60, that key
is gone once the window has elapsed (read at time 60), and the next call then
yields `(false, 4)` again.  The general conjunct: every check on a working
store returns `is_limited = (limit < c)` and `remaining = max 0 (limit - c)`
for the post-increment count `c`, sets the key's expiry to `now + window`
exactly when `c = 1`, and performs no expiry write when `c ≠ 1`. -/
theorem check_rate_limit_fixed_window :
    ((rl_call_seq (RedisHandle.client []) [0, 0, 0, 0, 0, 0] "12345" "confirm_order" 5 60).1 =
        [(false, 4), (false, 3), (false, 2), (false, 1), (false, 0), (true, 0)]
      ∧ (rl_call_seq (RedisHandle.client []) [0, 0, 0, 0, 0, 0] "12345" "confirm_order" 5 60).2 =
        RedisHandle.client [(rl_key "confirm_order" "12345", 6, some 60)]
      ∧ redisGet 60 [(rl_key "confirm_order" "12345", 6, some 60)] (rl_key "confirm_order" "12345") = none
      ∧ (check_rate_limit (RedisHandle.client [(rl_key "confirm_order" "12345", 6, some 60)])
          60 "12345" "confirm_order" 5 60).1 = (false, 4))
    ∧ (∀ (s : KVStore) (now : Nat) (identifier action : String) (limit window : Nat),
        (check_rate_limit (RedisHandle.client s) now identifier action limit window).1.1 =
          decide (limit < (redisIncr now s (rl_key action identifier)).1)
        ∧ ((check_rate_limit (RedisHandle.client s) now identifier action limit window).1.2 : Int) =
          max 0 ((limit : Int) - ((redisIncr now s (rl_key action identifier)).1 : Int))
        ∧ ((redisIncr now s (rl_key action identifier)).1 = 1 →
            ∃ s2, (check_rate_limit (RedisHandle.client s) now identifier action limit window).2 =
                RedisHandle.client s2
              ∧ List.find? (fun e => e.1 == rl_key action identifier) s2 =
                some (rl_key action identifier, 1, some (now + window)))
        ∧ ((redisIncr now s (rl_key action identifier)).1 ≠ 1 →
            (check_rate_limit (RedisHandle.client s) now identifier action limit window).2 =
              RedisHandle.client (redisIncr now s (rl_key action identifier)).2)) := by
  refine ⟨⟨by decide, by decide, by decide, by decide⟩, ?_⟩
  intro s now identifier action limit window
  refine ⟨rfl, ?_, ?_, ?_⟩
  · have hproj : (check_rate_limit (RedisHandle.client s) now identifier action limit window).1.2 =
        limit - (redisIncr now s (rl_key action identifier)).1 := rfl
    rw [hproj]
    omega
  · intro h1
    refine ⟨redisExpire now (redisIncr now s (rl_key action identifier)).2
        (rl_key action identifier) window, ?_, ?_⟩
    · simp [check_rate_limit, h1]
    · unfold redisExpire
      rw [find?_key_map _ (rl_key action identifier) _ (by
        intro e
        by_cases he : e.1 = rl_key action identifier <;> simp [he])]
      unfold redisIncr at h1 ⊢
      cases hget : redisGet now s (rl_key action identifier) with
      | some cd =>
        obtain ⟨c, d⟩ := cd
        rw [hget] at h1
        have h1' : c + 1 = 1 := h1
        have hc : c = 0 := by omega
        subst hc
        have hfind : ∃ e, List.find? (fun e => e.1 == rl_key action identifier) s = some e := by
          unfold redisGet at hget
          cases hf : List.find? (fun e => e.1 == rl_key action identifier) s with
          | none => rw [hf] at hget; exact absurd hget (by simp)
          | some e => exact ⟨e, rfl⟩
        obtain ⟨e, hfind⟩ := hfind
        have hekey := List.find?_some hfind
        rw [find?_key_map _ (rl_key action identifier) _ (by
          intro e'
          by_cases he : e'.1 = rl_key action identifier <;> simp [he])]
        rw [hfind]
        have hee : e.1 = rl_key action identifier := by simpa using hekey
        simp [hee]
      | none =>
        simp
  · intro h1
    simp [check_rate_limit, h1]

theorem check_rate_limit_fixed_window_witness :
    ∃ s2, (check_rate_limit (RedisHandle.client []) 0 "12345" "confirm_order" 5 60).2 =
        RedisHandle.client s2
      ∧ List.find? (fun e => e.1 == rl_key "confirm_order" "12345") s2 =
        some (rl_key "confirm_order" "12345", 1, some 60) :=
  (check_rate_limit_fixed_window.2 [] 0 "12345" "confirm_order" 5 60).2.2.1 rfl

/-! ### C7 — fail-open behaviour -/

/-- C7: when the client handle is absent (connection never established) or
any store operation raises, `check_rate_limit` returns
`(is_limited := false, remaining := limit)` for every identifier, action,
limit and window — the caller is never reported as limited. -/
theorem check_rate_limit_fails_open (identifier action : String)
    (limit window now : Nat) :
    check_rate_limit RedisHandle.offline now identifier action limit window =
      ((false, limit), RedisHandle.offline)
    ∧ check_rate_limit RedisHandle.erroring now identifier action limit window =
      ((false, limit), RedisHandle.erroring) :=
  ⟨rfl, rfl⟩

/-! ## Callback payload parsing (src/handlers/order_callback_handler.py)

`parse_callback_data` works on Python strings; it is embedded over `List Char`
so the split/strip/int steps can be reasoned about character by character.
Python's `str.strip()` and `int()` also accept some non-ASCII whitespace and
digits; the embedding models the ASCII repertoire, which every example below
uses. -/

/-- Python `str.split(":")`: split on every colon, keeping empty fields
(`"".split(":") == [""]`, `":".split(":") == ["", ""]`). -/
def pySplitColon : List Char → List (List Char)
  | [] => [[]]
  | c :: rest =>
    if c = ':' then [] :: pySplitColon rest
    else
      match pySplitColon rest with
      | [] => [[c]]
      | p :: ps => (c :: p) :: ps

/-- ASCII whitespace as stripped by `str.strip()`. -/
def pyIsSpace (c : Char) : Bool :=
  c == ' ' || c == '\t' || c == '\n' || c == '\x0d' || c == '\x0b' || c == '\x0c'

/-- Python `str.strip()`. -/
def pyStrip (cs : List Char) : List Char :=
  ((cs.dropWhile pyIsSpace).reverse.dropWhile pyIsSpace).reverse

/-- Digit run of a Python integer literal, allowing single underscores
between digits, accumulating the value. -/
def pyIntDigitsGo : List Char → Nat → Option Nat
  | [], acc => some acc
  | c :: rest, acc =>
    if c = '_' then
      match rest with
      | c2 :: rest2 =>
        if c2.isDigit then pyIntDigitsGo rest2 (acc * 10 + (c2.toNat - 48)) else none
      | [] => none
    else if c.isDigit then pyIntDigitsGo rest (acc * 10 + (c.toNat - 48)) else none

/-- Unsigned part of Python `int(...)`: must start with a digit. -/
def pyIntCore : List Char → Option Nat
  | [] => none
  | c :: rest => if c.isDigit then pyIntDigitsGo rest (c.toNat - 48) else none

/-- Python `int(str)` on an already-stripped string: optional sign, digits
with optional single underscore separators.  Any other input raises
`ValueError`, modelled as `none`. -/
def pyInt : List Char → Option Int
  | '+' :: rest => (pyIntCore rest).map (fun n => (n : Int))
  | '-' :: rest => (pyIntCore rest).map (fun n => -(n : Int))
  | cs => (pyIntCore cs).map (fun n => (n : Int))

/-- The tail of `parse_callback_data` after the split: take the second of
exactly two fields, strip it, reject empty, convert with `int`, reject
non-positive. -/
def parse_id_field (idPart : List Char) : Option Int :=
  let idStr := pyStrip idPart
  if idStr.isEmpty then none
  else
    match pyInt idStr with
    | none => none
    | some v => if v ≤ 0 then none else some v

/-- Dispatch on the number of `':'`-separated fields: the source checks
`len(parts) != 2` and then uses `parts[1]`. -/
def parse_after_split : List (List Char) → Option Int
  | [_, idPart] => parse_id_field idPart
  | _ => none

/-- `parse_callback_data(callback_data, action)`: reject empty input, require
the `"{action}:"` guard via `startswith`, split on `':'`, then
`parse_after_split`.  Every rejection path of the source returns `None`
(the function never raises: `ValueError` from `int` and any unexpected
exception are caught and mapped to `None`). -/
def parse_callback_data (callback_data action : List Char) : Option Int :=
  if callback_data.isEmpty then none
  else if ¬ List.isPrefixOf (action ++ [':']) callback_data then none
  else parse_after_split (pySplitColon callback_data)

/-- The claim's characterization, written from the spec's words: the payload
is accepted exactly when it is the action, then `':'`, then a (plain decimal)
positive integer. -/
def decimalVal (cs : List Char) : Nat :=
  cs.foldl (fun a c => a * 10 + (c.toNat - 48)) 0

/-- Spec-side definition for C8 (from the claim's words, for comparison with
the code): the id is returned iff the input is exactly
`action ++ ":" ++ digits` with a positive value. -/
def spec_payload_id (input action : List Char) : Option Nat :=
  let pre := action ++ [':']
  if List.isPrefixOf pre input then
    let s := input.drop pre.length
    if s ≠ [] ∧ s.all Char.isDigit ∧ 0 < decimalVal s then some (decimalVal s) else none
  else none

/-- The characterization that actually holds for the code: exactly one colon,
the text before it equal to the action, and the text after it — once stripped
of surrounding whitespace — a Python integer literal with positive value. -/
def parse_payload_amended (input action : List Char) : Option Int :=
  if input.count ':' = 1 ∧ input.takeWhile (fun c => !(c == ':')) = action then
    parse_id_field ((input.dropWhile (fun c => !(c == ':'))).tail)
  else none

/-! ### C8 lemmas -/

theorem pySplitColon_length (cs : List Char) :
    (pySplitColon cs).length = cs.count ':' + 1 := by
  induction cs with
  | nil => rfl
  | cons c rest ih =>
    by_cases hc : c = ':'
    · subst hc
      simp [pySplitColon, List.count_cons, ih]
    · rw [pySplitColon, if_neg hc]
      cases hps : pySplitColon rest with
      | nil => rw [hps] at ih; simp at ih
      | cons p ps =>
        rw [hps] at ih
        have hcb : (c == ':') = false := by simpa using hc
        simp only [List.length_cons] at ih ⊢
        simp [List.count_cons, hcb]
        omega

theorem pySplitColon_no_colon (cs : List Char) (h : ':' ∉ cs) :
    pySplitColon cs = [cs] := by
  induction cs with
  | nil => rfl
  | cons c rest ih =>
    have hc : c ≠ ':' := fun he => h (by simp [he])
    have hrest : ':' ∉ rest := fun hm => h (List.mem_cons_of_mem _ hm)
    rw [pySplitColon, if_neg hc, ih hrest]

theorem pySplitColon_append (a b : List Char) (ha : ':' ∉ a) :
    pySplitColon (a ++ ':' :: b) = a :: pySplitColon b := by
  induction a with
  | nil => simp [pySplitColon]
  | cons c a2 ih =>
    have hc : c ≠ ':' := fun he => ha (by simp [he])
    have ha2 : ':' ∉ a2 := fun hm => ha (List.mem_cons_of_mem _ hm)
    rw [List.cons_append, pySplitColon, if_neg hc, ih ha2]

theorem parse_after_split_of_length_ne_two (parts : List (List Char))
    (h : parts.length ≠ 2) : parse_after_split parts = none := by
  match parts with
  | [] => rfl
  | [_] => rfl
  | [_, _] => exact absurd rfl h
  | _ :: _ :: _ :: _ => rfl

theorem dropWhile_head_false {α : Type} (p : α → Bool) (l : List α) (c : α)
    (cs : List α) (h : l.dropWhile p = c :: cs) : p c = false := by
  induction l with
  | nil => simp at h
  | cons a l2 ih =>
    rw [List.dropWhile_cons] at h
    by_cases hp : p a = true
    · rw [if_pos hp] at h
      exact ih h
    · rw [if_neg hp] at h
      cases h
      simpa using hp

theorem takeWhile_append_colon (a b : List Char) (ha : ':' ∉ a) :
    (a ++ ':' :: b).takeWhile (fun c => !(c == ':')) = a
    ∧ (a ++ ':' :: b).dropWhile (fun c => !(c == ':')) = ':' :: b := by
  induction a with
  | nil => constructor <;> simp
  | cons c a2 ih =>
    have hc : c ≠ ':' := fun he => ha (by simp [he])
    have hcb : (c == ':') = false := by simpa using hc
    have ha2 : ':' ∉ a2 := fun hm => ha (List.mem_cons_of_mem _ hm)
    obtain ⟨iht, ihd⟩ := ih ha2
    constructor
    · simp [List.takeWhile_cons, hcb, iht]
    · simp [List.dropWhile_cons, hcb, ihd]

theorem count_takeWhile_colon (l : List Char) :
    (l.takeWhile (fun c => !(c == ':'))).count ':' = 0 := by
  rw [List.count_eq_zero]
  intro hm
  have := List.mem_takeWhile_imp hm
  simp at this

/-! ### C8 theorems -/

/-- C8 counterexample: the claim says the id is returned exactly when the
payload is the action, `':'`, then a positive integer — but the source strips
whitespace around the id field (`parts[1].strip()`), so
`"confirm_order: 12345"` (note the space) is accepted with id 12345 although
its id field `" 12345"` is not a positive integer. -/
theorem parse_callback_data_strict_shape_fails :
    parse_callback_data ("confirm_order: 12345".toList) ("confirm_order".toList) =
      some 12345
    ∧ spec_payload_id ("confirm_order: 12345".toList) ("confirm_order".toList) = none := by
  constructor
  · decide
  · decide

/-- C8 amended: `parse_callback_data` returns `some id` exactly when the
input has exactly one `':'`, the text before it equals the action, and the
text after it, stripped of surrounding whitespace, is a Python integer
literal (optional sign, digits with optional single underscore separators)
with positive value `id`; in every other case it returns `none` (the
embedding is a total function: no exception escapes).  The remaining
conjuncts replay the spec's examples. -/
theorem parse_callback_data_characterization :
    (∀ input action, parse_callback_data input action = parse_payload_amended input action)
    ∧ parse_callback_data ("confirm_order:12345".toList) ("confirm_order".toList) = some 12345
    ∧ parse_callback_data ("confirm_order".toList) ("confirm_order".toList) = none
    ∧ parse_callback_data ("confirm_order:abc".toList) ("confirm_order".toList) = none
    ∧ parse_callback_data ("confirm_order:-5".toList) ("confirm_order".toList) = none
    ∧ parse_callback_data ("confirm_order:5:6".toList) ("confirm_order".toList) = none := by
  refine ⟨?_, by decide, by decide, by decide, by decide, by decide⟩
  intro input action
  by_cases hpre : List.isPrefixOf (action ++ [':']) input = true
  · obtain ⟨t, ht⟩ := List.isPrefixOf_iff_prefix.mp hpre
    rw [List.append_assoc, List.singleton_append] at ht
    subst ht
    have hempty : (action ++ ':' :: t).isEmpty = false := by
      cases action <;> rfl
    by_cases hca : ':' ∈ action
    · have hcount : (action ++ ':' :: t).count ':' ≠ 1 := by
        have h1 : 0 < action.count ':' := List.count_pos_iff.mpr hca
        simp [List.count_append, List.count_cons]
        omega
      rw [parse_payload_amended, if_neg (by
        rintro ⟨h1, -⟩
        exact hcount h1)]
      rw [parse_callback_data, hempty]
      simp only [Bool.false_eq_true, if_false, hpre, not_true_eq_false]
      apply parse_after_split_of_length_ne_two
      rw [pySplitColon_length]
      have h1 : 0 < action.count ':' := List.count_pos_iff.mpr hca
      simp [List.count_append, List.count_cons]
      omega
    · by_cases hct : ':' ∈ t
      · have hcount : (action ++ ':' :: t).count ':' ≠ 1 := by
          have h1 : 0 < t.count ':' := List.count_pos_iff.mpr hct
          have h0 : action.count ':' = 0 := List.count_eq_zero.mpr hca
          simp [List.count_append, List.count_cons, h0]
          omega
        rw [parse_payload_amended, if_neg (by
          rintro ⟨h1, -⟩
          exact hcount h1)]
        rw [parse_callback_data, hempty]
        simp only [Bool.false_eq_true, if_false, hpre, not_true_eq_false]
        apply parse_after_split_of_length_ne_two
        rw [pySplitColon_length]
        have h1 : 0 < t.count ':' := List.count_pos_iff.mpr hct
        have h0 : action.count ':' = 0 := List.count_eq_zero.mpr hca
        simp [List.count_append, List.count_cons, h0]
        omega
      · obtain ⟨htw, hdw⟩ := takeWhile_append_colon action t hca
        have hcount : (action ++ ':' :: t).count ':' = 1 := by
          have h0 : action.count ':' = 0 := List.count_eq_zero.mpr hca
          have h1 : t.count ':' = 0 := List.count_eq_zero.mpr hct
          simp [List.count_append, List.count_cons, h0, h1]
        rw [parse_payload_amended, if_pos ⟨hcount, htw⟩, hdw]
        rw [parse_callback_data, hempty]
        simp only [Bool.false_eq_true, if_false, hpre, not_true_eq_false]
        rw [pySplitColon_append action t hca, pySplitColon_no_colon t hct]
        rfl
  · have hparse : parse_callback_data input action = none := by
      rw [parse_callback_data]
      by_cases he : input.isEmpty <;> simp [he, hpre]
    rw [hparse, parse_payload_amended]
    rw [if_neg ?hcond]
    case hcond =>
      rintro ⟨hc1, htw⟩
      have hdw0 : (input.dropWhile (fun c => !(c == ':'))).count ':' = 1 := by
        have hsplit := List.takeWhile_append_dropWhile
          (p := fun c => !(c == ':')) (l := input)
        have : input.count ':' =
            (input.takeWhile (fun c => !(c == ':'))).count ':'
            + (input.dropWhile (fun c => !(c == ':'))).count ':' := by
          conv_lhs => rw [← hsplit]
          rw [List.count_append]
        rw [count_takeWhile_colon] at this
        omega
      have hne : input.dropWhile (fun c => !(c == ':')) ≠ [] := by
        intro h0
        rw [h0] at hdw0
        simp at hdw0
      obtain ⟨d, ds, hds⟩ := List.exists_cons_of_ne_nil hne
      have hd := dropWhile_head_false _ input d ds hds
      have hdc : d = ':' := by simpa using hd
      subst hdc
      have hinput : input = action ++ ':' :: ds := by
        conv_lhs => rw [← List.takeWhile_append_dropWhile
          (p := fun c => !(c == ':')) (l := input)]
        rw [htw, hds]
      apply hpre
      rw [hinput, List.isPrefixOf_iff_prefix]
      exact ⟨ds, by simp⟩

/-! ## RetailCRM gateway retry policy (src/services/retailcrm_service.py)

`_make_get_request` / `_make_post_request` carry the identical tenacity
decorator `retry(stop=stop_after_attempt(3), wait=wait_exponential(multiplier=1,
min=2, max=10), retry=retry_if_exception_type((requests.RequestException,
requests.Timeout)))` around `requests.get/post` + `response.raise_for_status()`;
one embedding covers both.  An attempt's outside world is a function from the
attempt number (1-based) to what the HTTP call itself produces: either a
raised exception or a response (status code plus the parsed body's success
flag). -/

/-- The exception taxonomy relevant to the retry predicate.  In `requests`,
`Timeout`, `ConnectionError` and the `HTTPError` raised by
`raise_for_status()` are all subclasses of `RequestException`. -/
inductive ReqError where
  | timeoutErr : ReqError
  | connectionErr : ReqError
  | httpStatusErr : Nat → ReqError
  | otherErr : ReqError
  deriving DecidableEq

/-- `isinstance(e, (requests.RequestException, requests.Timeout))` — the
tenacity retry predicate.  `HTTPError` (4xx/5xx) is a `RequestException`. -/
def isRequestsException : ReqError → Bool
  | .timeoutErr => true
  | .connectionErr => true
  | .httpStatusErr _ => true
  | .otherErr => false

/-- Spec-side notion for C5: a transport-level failure is a timeout or a
connection error; an HTTP status error is an application-level rejection. -/
def isTransportFailure : ReqError → Bool
  | .timeoutErr => true
  | .connectionErr => true
  | _ => false

structure HttpResponse where
  status : Nat
  bodySuccess : Bool
  deriving DecidableEq

/-- `response.raise_for_status()`: raise `HTTPError` on a 4xx/5xx status. -/
def raise_for_status (r : HttpResponse) : Except ReqError HttpResponse :=
  if 400 ≤ r.status then Except.error (ReqError.httpStatusErr r.status) else Except.ok r

/-- One body execution of the wrapped function: perform the HTTP call
(`transports n` is what attempt `n` gets from the network), then
`raise_for_status`. -/
def single_get_attempt (transports : Nat → Except ReqError HttpResponse)
    (n : Nat) : Except ReqError HttpResponse :=
  match transports n with
  | Except.error e => Except.error e
  | Except.ok r => raise_for_status r

/-- tenacity `wait_exponential(multiplier=1, min=2, max=10)` after attempt
`attemptNumber`: `clamp(1 * 2 ^ attemptNumber, 2, 10)`. -/
def retryWait (attemptNumber : Nat) : Nat :=
  max 2 (min (2 ^ attemptNumber) 10)

/-- The tenacity driver: run the attempt; return on success; on an exception
matching the retry predicate, wait and re-run while attempts remain
(`stop_after_attempt(3)`); otherwise re-raise at once.  Result:
(number of attempts made, the waits slept between attempts, final outcome).
The `0`-budget base case is unreachable from a positive budget. -/
def tenacityLoop (attempt : Nat → Except ReqError HttpResponse) :
    Nat → Nat → Nat × List Nat × Except ReqError HttpResponse
  | _, 0 => (0, [], Except.error ReqError.otherErr)
  | n, remaining + 1 =>
    match attempt n with
    | Except.ok r => (1, [], Except.ok r)
    | Except.error e =>
      if isRequestsException e = true ∧ 0 < remaining then
        let r2 := tenacityLoop attempt (n + 1) remaining
        (r2.1 + 1, retryWait n :: r2.2.1, r2.2.2)
      else (1, [], Except.error e)

/-- `RetailCRMService._make_get_request` (and `_make_post_request`): the
wrapped body under the tenacity policy, starting at attempt 1 with a budget
of 3 attempts. -/
def make_get_request (transports : Nat → Except ReqError HttpResponse) :
    Nat × List Nat × Except ReqError HttpResponse :=
  tenacityLoop (single_get_attempt transports) 1 3

theorem retryWait_bounds (k : Nat) : 2 ≤ retryWait k ∧ retryWait k ≤ 10 := by
  unfold retryWait
  omega

theorem tenacityLoop_ok (attempt : Nat → Except ReqError HttpResponse)
    (n rem : Nat) (r : HttpResponse) (h : attempt n = Except.ok r) :
    tenacityLoop attempt n (rem + 1) = (1, [], Except.ok r) := by
  simp [tenacityLoop, h]

theorem tenacityLoop_retry (attempt : Nat → Except ReqError HttpResponse)
    (n rem : Nat) (e : ReqError) (h : attempt n = Except.error e)
    (hr : isRequestsException e = true) (hrem : 0 < rem) :
    tenacityLoop attempt n (rem + 1) =
      ((tenacityLoop attempt (n + 1) rem).1 + 1,
       retryWait n :: (tenacityLoop attempt (n + 1) rem).2.1,
       (tenacityLoop attempt (n + 1) rem).2.2) := by
  simp [tenacityLoop, h, hr, hrem]

theorem tenacityLoop_stop (attempt : Nat → Except ReqError HttpResponse)
    (n rem : Nat) (e : ReqError) (h : attempt n = Except.error e)
    (hcond : ¬(isRequestsException e = true ∧ 0 < rem)) :
    tenacityLoop attempt n (rem + 1) = (1, [], Except.error e) := by
  simp only [tenacityLoop, h]
  rw [if_neg hcond]

theorem tenacityLoop_spec (attempt : Nat → Except ReqError HttpResponse) :
    ∀ rem n, 1 ≤ rem →
      1 ≤ (tenacityLoop attempt n rem).1
      ∧ (tenacityLoop attempt n rem).1 ≤ rem
      ∧ (tenacityLoop attempt n rem).2.1 =
        (List.range ((tenacityLoop attempt n rem).1 - 1)).map (fun i => retryWait (n + i)) := by
  intro rem
  induction rem with
  | zero => intro n h; omega
  | succ rem2 ih =>
    intro n _
    cases hatt : attempt n with
    | ok r => rw [tenacityLoop_ok attempt n rem2 r hatt]; simp
    | error e =>
      by_cases hcond : isRequestsException e = true ∧ 0 < rem2
      · rw [tenacityLoop_retry attempt n rem2 e hatt hcond.1 hcond.2]
        obtain ⟨h1, h2, h3⟩ := ih (n + 1) hcond.2
        refine ⟨by omega, by omega, ?_⟩
        obtain ⟨m, hm⟩ : ∃ m, (tenacityLoop attempt (n + 1) rem2).1 = m + 1 :=
          ⟨(tenacityLoop attempt (n + 1) rem2).1 - 1, by omega⟩
        rw [h3, hm]
        simp only [Nat.add_sub_cancel]
        rw [List.range_succ_eq_map]
        simp only [List.map_cons, List.map_map, Nat.add_zero]
        congr 1
        apply List.map_congr_left
        intro i _
        simp only [Function.comp_apply]
        congr 1
        omega
      · rw [tenacityLoop_stop attempt n rem2 e hatt hcond]
        simp

/-- Transport outcomes for the C5 counterexample: attempt 1 receives an HTTP
500 response (an application-level rejection with a parsed error body),
attempt 2 a clean 200. -/
def c5_transports : Nat → Except ReqError HttpResponse := fun n =>
  if n = 1 then Except.ok { status := 500, bodySuccess := false }
  else Except.ok { status := 200, bodySuccess := true }

/-- C5 counterexample: the first attempt fails with `HTTPError` for status
500 — not a transport-level failure — yet the gateway makes a second attempt
(2 attempts in total), because `HTTPError` is a `requests.RequestException`
and thus matches the retry predicate.  The claim's "a retry happens only on
transport-level failures (timeout, connection error); an HTTP 4xx/5xx
response ... is never retried" is false on the code. -/
theorem retry_on_http_rejection :
    single_get_attempt c5_transports 1 = Except.error (ReqError.httpStatusErr 500)
    ∧ isTransportFailure (ReqError.httpStatusErr 500) = false
    ∧ (make_get_request c5_transports).1 = 2
    ∧ (make_get_request c5_transports).2.2 =
      Except.ok { status := 200, bodySuccess := true } := by
  refine ⟨rfl, rfl, rfl, rfl⟩

/-- C5 amended: every backend call is attempted at most 3 times; the waits
between attempts follow `wait_exponential(multiplier=1, min=2, max=10)` — so
they are a prefix of [2, 4] and each lies in [2, 10]; a retry is triggered by
any `requests` exception, which includes timeouts, connection errors AND the
`HTTPError` raised on a 4xx/5xx status; an exception outside `requests`'
hierarchy is never retried and is surfaced at once; an HTTP-200 response
whose parsed body signals failure is returned to the caller without any
retry. -/
theorem make_get_request_retry_policy (transports : Nat → Except ReqError HttpResponse) :
    (1 ≤ (make_get_request transports).1 ∧ (make_get_request transports).1 ≤ 3)
    ∧ ((make_get_request transports).2.1 = []
       ∨ (make_get_request transports).2.1 = [2]
       ∨ (make_get_request transports).2.1 = [2, 4])
    ∧ (∀ w ∈ (make_get_request transports).2.1, 2 ≤ w ∧ w ≤ 10)
    ∧ (∀ e, single_get_attempt transports 1 = Except.error e →
        isRequestsException e = false →
        make_get_request transports = (1, [], Except.error e))
    ∧ (∀ e, single_get_attempt transports 1 = Except.error e →
        isRequestsException e = true →
        2 ≤ (make_get_request transports).1)
    ∧ (∀ r, transports 1 = Except.ok r → r.status < 400 →
        make_get_request transports = (1, [], Except.ok r)) := by
  have hmk : make_get_request transports =
      tenacityLoop (single_get_attempt transports) 1 3 := rfl
  obtain ⟨h1, h3, hw⟩ := tenacityLoop_spec (single_get_attempt transports) 3 1 (by omega)
  rw [← hmk] at h1 h3 hw
  refine ⟨⟨h1, h3⟩, ?_, ?_, ?_, ?_, ?_⟩
  · have hc : (make_get_request transports).1 = 1
        ∨ (make_get_request transports).1 = 2
        ∨ (make_get_request transports).1 = 3 := by omega
    rcases hc with hc | hc | hc
    · left
      rw [hw, hc]
      decide
    · right
      left
      rw [hw, hc]
      decide
    · right
      right
      rw [hw, hc]
      decide
  · intro w hwmem
    rw [hw] at hwmem
    obtain ⟨i, -, hi⟩ := List.mem_map.mp hwmem
    rw [← hi]
    exact retryWait_bounds (1 + i)
  · intro e hatt hreq
    rw [hmk]
    exact tenacityLoop_stop _ 1 2 e hatt (by
      rintro ⟨hcon, -⟩
      exact absurd hcon (by simp [hreq]))
  · intro e hatt hreq
    obtain ⟨h1b, -, -⟩ := tenacityLoop_spec (single_get_attempt transports) 2 2 (by omega)
    rw [hmk, tenacityLoop_retry _ 1 2 e hatt hreq (by omega)]
    simpa using h1b
  · intro r htr hst
    have hatt : single_get_attempt transports 1 = Except.ok r := by
      unfold single_get_attempt
      rw [htr]
      show raise_for_status r = Except.ok r
      unfold raise_for_status
      rw [if_neg (by omega)]
    rw [hmk]
    exact tenacityLoop_ok _ 1 2 r hatt

/-- Transport outcomes whose first attempt raises a non-`requests`
exception. -/
def c5_witness_transports : Nat → Except ReqError HttpResponse := fun _ =>
  Except.error ReqError.otherErr

theorem make_get_request_retry_policy_witness :
    make_get_request c5_witness_transports = (1, [], Except.error ReqError.otherErr)
    ∧ 2 ≤ (make_get_request c5_transports).1
    ∧ make_get_request (fun _ => Except.ok { status := 200, bodySuccess := false }) =
      (1, [], Except.ok { status := 200, bodySuccess := false }) := by
  refine ⟨?_, ?_, ?_⟩
  · exact (make_get_request_retry_policy c5_witness_transports).2.2.2.1
      ReqError.otherErr rfl rfl
  · exact (make_get_request_retry_policy c5_transports).2.2.2.2.1
      (ReqError.httpStatusErr 500) rfl rfl
  · exact (make_get_request_retry_policy
      (fun _ => Except.ok { status := 200, bodySuccess := false })).2.2.2.2.2
      { status := 200, bodySuccess := false } rfl (by decide)

/-! ## Order monitor (src/services/order_monitor_service.py)

`check_orders_with_status` is embedded as a pure pass over
(ledger, fetched page, live order lookup, per-send outcomes):
* `page` is the raw order page the backend returns to
  `RetailCRMService.get_orders_by_status`, which filters it client-side;
* `live oid` models `RetailCRMService.get_order_by_id(oid)` during the
  no-product return check — `none` covers both "request failed" and "no such
  order", which the source skips identically;
* Telegram sends have no effect on any modelled state; their outcomes are an
  oracle `outc` consulted by the fan-out, and the ids for which a dispatch
  was attempted are returned as the pass's first component. -/

/-- An order as the backend returns it (the fields the monitor reads). -/
structure Order where
  id : Nat
  number : String
  status : String
  shipmentStore : Option String
  deliveryCode : Option String
  totalSumm : Option Int
  deriving DecidableEq, Repr

/-- One entry of the static admin → warehouse routing table. -/
structure AdminEntry where
  user_id : String
  warehouse : String
  chat_id : String
  deriving DecidableEq, Repr

/-- Monitor configuration.  The two status codes are read from
`Settings.get_status_target()` / `Settings.get_status_returned_from_discussion()`,
which the source calls but which are not present in src/config/settings.py;
they are left abstract as fields, no behaviour is assumed of them. -/
structure MonitorConfig where
  targetStatus : String
  statusReturned : String
  admins : List AdminEntry
  deriving DecidableEq, Repr

/-- `OrderMonitorService.get_admins_for_warehouse`: the (user_id, chat_id)
pairs whose configured warehouse equals the code. -/
def get_admins_for_warehouse (cfg : MonitorConfig) (warehouse_code : String) :
    List (String × String) :=
  (cfg.admins.filter (fun a => a.warehouse == warehouse_code)).map
    (fun a => (a.user_id, a.chat_id))

/-- `RetailCRMService.get_orders_by_status`: fetch one page and filter
client-side by the status code. -/
def get_orders_by_status (page : List Order) (status_code : String) : List Order :=
  page.filter (fun o => o.status == status_code)

/-- The Telegram exception classes `send_notification_to_warehouse_admins`
distinguishes. -/
inductive TgSendError where
  | forbidden : TgSendError
  | retryAfter : Nat → TgSendError
  | network : TgSendError
  | badRequest : TgSendError
  | unexpected : TgSendError
  deriving DecidableEq, Repr

/-- Outcome of one send attempt; `none` is success. -/
abbrev SendAttempt := Option TgSendError

/-- Per-recipient control flow of the fan-out loop body: the first slot is
the initial photo/album/text send; the second is the fallback text send after
a `TelegramBadRequest` in the image branch, or the single retry after a
`TelegramRetryAfter`; the third is the retry after a `TelegramRetryAfter`
raised by the fallback text send.  Every exception class leads to
`continue` — this function only records whether the recipient ended up
receiving a message. -/
def recipient_delivered (hasImages : Bool) (o : SendAttempt × SendAttempt × SendAttempt) :
    Bool :=
  match o.1 with
  | none => true
  | some e =>
    match e, hasImages with
    | TgSendError.badRequest, true =>
      (match o.2.1 with
       | none => true
       | some (TgSendError.retryAfter _) => o.2.2.isNone
       | some _ => false)
    | TgSendError.retryAfter _, _ => o.2.1.isNone
    | _, _ => false

/-- The `for idx, (user_id, chat_id) in enumerate(target_admins)` loop:
every iteration catches its own exceptions, so the loop always visits every
recipient.  Returns (recipients a send was attempted for, in order;
recipients that received a message). -/
def fan_out : List (String × String) → (Nat → SendAttempt × SendAttempt × SendAttempt) →
    Bool → Nat → List (String × String) × List (String × String)
  | [], _, _, _ => ([], [])
  | a :: rest, outc, hasImages, k =>
    let delivered := recipient_delivered hasImages (outc k)
    let r := fan_out rest outc hasImages (k + 1)
    (a :: r.1, if delivered then a :: r.2 else r.2)

/-- `OrderMonitorService.send_notification_to_warehouse_admins`: return early
(no sends) when the order has no shipment warehouse; otherwise fan out over
the admins mapped to that warehouse.  (The early return for an empty admin
list is the same as fanning out over `[]`.) -/
def send_notification_to_warehouse_admins (cfg : MonitorConfig) (o : Order)
    (hasImages : Bool) (outc : Nat → SendAttempt × SendAttempt × SendAttempt) :
    List (String × String) × List (String × String) :=
  match o.shipmentStore with
  | none => ([], [])
  | some wh => fan_out (get_admins_for_warehouse cfg wh) outc hasImages 0

/-- The per-order body of the dispatch loop in `check_orders_with_status`
(lines 441-458): build and send the notification, then
`save_processed_order(order_id, order_number, status=TARGET_STATUS_CODE,
delivery_type=delivery.code, total_sum=totalSumm, warehouse_code=shipmentStore)`
— the save runs after the fan-out whatever the send outcomes were. -/
def process_one_order (cfg : MonitorConfig) (L : Ledger) (o : Order)
    (hasImages : Bool) (outc : Nat → SendAttempt × SendAttempt × SendAttempt) :
    (List (String × String) × List (String × String)) × Ledger :=
  let sends := send_notification_to_warehouse_admins cfg o hasImages outc
  (sends, save_processed_order L o.id o.number cfg.targetStatus o.deliveryCode
    o.totalSumm none o.shipmentStore)

/-- One iteration of `_check_orders_returned_from_no_product`'s loop over the
snapshot rows: skip unless `was_in_no_product` and not yet
`returned_from_no_product`; fetch the live order (failure/absence skips); if
its status equals the returned code, mark the row returned, delete it via
`reset_order_for_renotification`, and append the live order to the returned
list. -/
def check_returned_step (cfg : MonitorConfig) (live : Nat → Option Order)
    (acc : Ledger × List Order) (row : ProcessedOrderRecord) : Ledger × List Order :=
  if row.was_in_no_product = false then acc
  else if row.returned_from_no_product = true then acc
  else
    match live row.order_id with
    | none => acc
    | some current =>
      if current.status == cfg.statusReturned then
        let db1 := (mark_order_returned_from_no_product acc.1 row.order_id).2
        let db2 := (reset_order_for_renotification db1 row.order_id).2
        (db2, acc.2 ++ [current])
      else acc

/-- `OrderMonitorService._check_orders_returned_from_no_product`: iterate the
step over the snapshot `get_all_processed_orders` taken before the loop,
threading the database state. -/
def check_orders_returned_from_no_product (cfg : MonitorConfig) (L : Ledger)
    (live : Nat → Option Order) : Ledger × List Order :=
  (get_all_processed_orders L).foldl (check_returned_step cfg live) (L, [])

/-- The `for order in new_orders` dispatch loop: notify (outcomes indexed per
order by `k`), then save; collect the ids a dispatch was attempted for. -/
def process_new_orders (cfg : MonitorConfig)
    (outc : Nat → Nat → SendAttempt × SendAttempt × SendAttempt)
    (images : Nat → Bool) :
    Ledger → List Order → Nat → List Nat × Ledger
  | L, [], _ => ([], L)
  | L, o :: rest, k =>
    let step := process_one_order cfg L o (images k) (outc k)
    let r := process_new_orders cfg outc images step.2 rest (k + 1)
    (o.id :: r.1, r.2)

/-- `OrderMonitorService.check_orders_with_status`: fetch the target-status
orders, run the no-product return check, join both candidate groups, keep
those not yet `is_order_processed` (checked against the database state after
the return check), then dispatch and save each. -/
def check_orders_with_status (cfg : MonitorConfig) (L : Ledger) (page : List Order)
    (live : Nat → Option Order)
    (outc : Nat → Nat → SendAttempt × SendAttempt × SendAttempt)
    (images : Nat → Bool) : List Nat × Ledger :=
  let orders := get_orders_by_status page cfg.targetStatus
  let ret := check_orders_returned_from_no_product cfg L live
  let all_orders := orders ++ ret.2
  let new_orders := all_orders.filter (fun o => !(is_order_processed ret.1 o.id))
  process_new_orders cfg outc images ret.1 new_orders 0

/-- A ledger row qualifies for the no-product return path: flagged
`was_in_no_product`, not yet `returned_from_no_product`, and its freshly
fetched live status equals the returned code. -/
def returnEligible (cfg : MonitorConfig) (live : Nat → Option Order)
    (r : ProcessedOrderRecord) : Bool :=
  r.was_in_no_product && !r.returned_from_no_product &&
    (match live r.order_id with
     | some o => o.status == cfg.statusReturned
     | none => false)

/-- Backend contract: fetching an order by id returns an order carrying that
id. -/
def liveWF (live : Nat → Option Order) : Prop :=
  ∀ oid o, live oid = some o → o.id = oid

/-! ### Lemmas about single ledger operations used by the monitor pass -/

theorem db_lookup_key (L : Ledger) (id : Nat) (r : ProcessedOrderRecord)
    (h : db_lookup L id = some r) : r.order_id = id := by
  have hk := List.find?_some h
  simpa using hk

theorem db_lookup_map_keeping (L : Ledger) (id : Nat)
    (f : ProcessedOrderRecord → ProcessedOrderRecord)
    (hf : ∀ r, (f r).order_id = r.order_id) :
    db_lookup (L.map f) id = (db_lookup L id).map f := by
  induction L with
  | nil => rfl
  | cons r t ih =>
    unfold db_lookup at ih ⊢
    rw [List.map_cons, List.find?_cons, List.find?_cons]
    cases hk : (r.order_id == id) with
    | true => simp [hf, hk]
    | false => simp [hf, hk, ih]

theorem mark_returned_key_fun (id : Nat) (r : ProcessedOrderRecord) :
    ((fun q => if q.order_id == id then { q with returned_from_no_product := true } else q) r).order_id
      = r.order_id := by
  by_cases hq : r.order_id = id <;> simp [hq]

theorem db_lookup_mark_returned_same (L : Ledger) (id : Nat) (r : ProcessedOrderRecord)
    (h : db_lookup L id = some r) :
    db_lookup (mark_order_returned_from_no_product L id).2 id =
      some { r with returned_from_no_product := true } := by
  unfold mark_order_returned_from_no_product
  rw [db_lookup_map_keeping L id _ (mark_returned_key_fun id), h]
  have hk : r.order_id = id := db_lookup_key L id r h
  simp [hk]

theorem db_lookup_mark_returned_other (L : Ledger) (id id2 : Nat) (hne : id ≠ id2) :
    db_lookup (mark_order_returned_from_no_product L id).2 id2 = db_lookup L id2 := by
  unfold mark_order_returned_from_no_product
  rw [db_lookup_map_keeping L id2 _ (mark_returned_key_fun id)]
  cases hfind : db_lookup L id2 with
  | none => rfl
  | some r =>
    have hk : r.order_id = id2 := db_lookup_key L id2 r hfind
    simp [hk, Ne.symm hne]

theorem reset_snd_cases (L : Ledger) (id : Nat) :
    (reset_order_for_renotification L id).2 = L
    ∨ (reset_order_for_renotification L id).2 =
      L.filter (fun q => !(q.order_id == id)) := by
  unfold reset_order_for_renotification
  cases List.find? (fun q => q.order_id == id) L with
  | none => exact Or.inl rfl
  | some r =>
    by_cases hwas : r.was_in_no_product = false
    · exact Or.inl (by simp [hwas])
    · exact Or.inr (by simp [hwas])

theorem reset_deletes (L : Ledger) (id : Nat) (r : ProcessedOrderRecord)
    (hfind : db_lookup L id = some r) (hwas : r.was_in_no_product = true) :
    (reset_order_for_renotification L id).2 =
      L.filter (fun q => !(q.order_id == id)) := by
  unfold reset_order_for_renotification
  rw [show List.find? (fun q => q.order_id == id) L = some r from hfind]
  simp [hwas]

theorem db_lookup_filter_other (L : Ledger) (id id2 : Nat) (hne : id ≠ id2) :
    db_lookup (L.filter (fun q => !(q.order_id == id))) id2 = db_lookup L id2 := by
  unfold db_lookup
  refine find?_filter_of_imp _ _ L ?_
  intro r hr
  have hk : r.order_id = id2 := by simpa using hr
  simp [hk, Ne.symm hne]

theorem db_lookup_reset_other (L : Ledger) (id id2 : Nat) (hne : id ≠ id2) :
    db_lookup (reset_order_for_renotification L id).2 id2 = db_lookup L id2 := by
  rcases reset_snd_cases L id with hc | hc <;> rw [hc]
  exact db_lookup_filter_other L id id2 hne

/-! ### Lemmas about the no-product return step -/

theorem check_returned_step_skip (cfg : MonitorConfig) (live : Nat → Option Order)
    (acc : Ledger × List Order) (row : ProcessedOrderRecord)
    (h : returnEligible cfg live row = false) :
    check_returned_step cfg live acc row = acc := by
  unfold check_returned_step
  cases hw : row.was_in_no_product with
  | false => simp
  | true =>
    cases hr : row.returned_from_no_product with
    | true => simp [hw]
    | false =>
      cases hl : live row.order_id with
      | none => simp [hw, hr, hl]
      | some cur =>
        have hs : (cur.status == cfg.statusReturned) = false := by
          simpa [returnEligible, hw, hr, hl] using h
        simp [hw, hr, hl, hs]

theorem check_returned_step_act (cfg : MonitorConfig) (live : Nat → Option Order)
    (acc : Ledger × List Order) (row : ProcessedOrderRecord) (cur : Order)
    (hw : row.was_in_no_product = true) (hr : row.returned_from_no_product = false)
    (hl : live row.order_id = some cur)
    (hs : (cur.status == cfg.statusReturned) = true) :
    check_returned_step cfg live acc row =
      ((reset_order_for_renotification
          (mark_order_returned_from_no_product acc.1 row.order_id).2 row.order_id).2,
       acc.2 ++ [cur]) := by
  unfold check_returned_step
  simp [hw, hr, hl, hs]

theorem returnEligible_decomp (cfg : MonitorConfig) (live : Nat → Option Order)
    (row : ProcessedOrderRecord) (h : returnEligible cfg live row = true) :
    row.was_in_no_product = true ∧ row.returned_from_no_product = false
    ∧ ∃ cur, live row.order_id = some cur
        ∧ (cur.status == cfg.statusReturned) = true := by
  unfold returnEligible at h
  cases hw : row.was_in_no_product <;> rw [hw] at h
  · simp at h
  · cases hr : row.returned_from_no_product <;> rw [hr] at h
    · cases hl : live row.order_id <;> rw [hl] at h
      · simp at h
      · next cur => exact ⟨rfl, rfl, cur, rfl, by simpa using h⟩
    · simp at h

theorem check_returned_step_other_lookup (cfg : MonitorConfig) (live : Nat → Option Order)
    (acc : Ledger × List Order) (row : ProcessedOrderRecord) (id : Nat)
    (hne : row.order_id ≠ id) :
    db_lookup (check_returned_step cfg live acc row).1 id = db_lookup acc.1 id := by
  by_cases hel : returnEligible cfg live row = true
  · obtain ⟨hw, hr, cur, hl, hs⟩ := returnEligible_decomp cfg live row hel
    rw [check_returned_step_act cfg live acc row cur hw hr hl hs]
    show db_lookup (reset_order_for_renotification
      (mark_order_returned_from_no_product acc.1 row.order_id).2 row.order_id).2 id
      = db_lookup acc.1 id
    rw [db_lookup_reset_other _ _ _ hne]
    exact db_lookup_mark_returned_other _ _ _ hne
  · rw [check_returned_step_skip cfg live acc row (by simpa using hel)]

theorem check_returned_step_snd (cfg : MonitorConfig) (live : Nat → Option Order)
    (acc : Ledger × List Order) (row : ProcessedOrderRecord) :
    (check_returned_step cfg live acc row).2 = acc.2
    ∨ ∃ cur, live row.order_id = some cur
        ∧ (check_returned_step cfg live acc row).2 = acc.2 ++ [cur] := by
  unfold check_returned_step
  cases hw : row.was_in_no_product with
  | false => exact Or.inl rfl
  | true =>
    cases hr : row.returned_from_no_product with
    | true => exact Or.inl rfl
    | false =>
      cases hl : live row.order_id with
      | none => exact Or.inl rfl
      | some cur =>
        cases hs : (cur.status == cfg.statusReturned) with
        | false => exact Or.inl (by simp [hs])
        | true => exact Or.inr ⟨cur, rfl, by simp [hs]⟩

/-! ### Fold lemmas for the return check -/

theorem check_returned_foldl_lookup (cfg : MonitorConfig) (live : Nat → Option Order) :
    ∀ (rows : List ProcessedOrderRecord) (id : Nat) (acc : Ledger × List Order),
      (∀ q ∈ rows, q.order_id = id → returnEligible cfg live q = false) →
      db_lookup (rows.foldl (check_returned_step cfg live) acc).1 id = db_lookup acc.1 id := by
  intro rows
  induction rows with
  | nil => intro id acc h; rfl
  | cons q rows2 ih =>
    intro id acc h
    rw [List.foldl_cons, ih id _ (fun q' hq' hkey => h q' (List.mem_cons_of_mem _ hq') hkey)]
    by_cases hq : q.order_id = id
    · rw [check_returned_step_skip cfg live acc q (h q (List.mem_cons_self _ _) hq)]
    · exact check_returned_step_other_lookup cfg live acc q id hq

theorem check_returned_foldl_countP (cfg : MonitorConfig) (live : Nat → Option Order)
    (hlw : liveWF live) :
    ∀ (rows : List ProcessedOrderRecord) (id : Nat) (acc : Ledger × List Order),
      (∀ q ∈ rows, q.order_id = id → returnEligible cfg live q = false) →
      ((rows.foldl (check_returned_step cfg live) acc).2.countP (fun o => o.id == id))
        = acc.2.countP (fun o => o.id == id) := by
  intro rows
  induction rows with
  | nil => intro id acc h; rfl
  | cons q rows2 ih =>
    intro id acc h
    rw [List.foldl_cons, ih id _ (fun q' hq' hkey => h q' (List.mem_cons_of_mem _ hq') hkey)]
    by_cases hq : q.order_id = id
    · rw [check_returned_step_skip cfg live acc q (h q (List.mem_cons_self _ _) hq)]
    · rcases check_returned_step_snd cfg live acc q with hc | ⟨cur, hl, hc⟩ <;> rw [hc]
      rw [List.countP_append]
      have hid : cur.id = q.order_id := hlw _ _ hl
      have hb : (cur.id == id) = false := by simp [hid, hq]
      simp [List.countP_cons, hb]

theorem check_returned_foldl_outputs_sub (cfg : MonitorConfig) (live : Nat → Option Order) :
    ∀ (rows : List ProcessedOrderRecord) (acc : Ledger × List Order) (x : Order),
      x ∈ acc.2 → x ∈ (rows.foldl (check_returned_step cfg live) acc).2 := by
  intro rows
  induction rows with
  | nil => intro acc x hx; exact hx
  | cons q rows2 ih =>
    intro acc x hx
    rw [List.foldl_cons]
    apply ih
    rcases check_returned_step_snd cfg live acc q with hc | ⟨cur, hl, hc⟩ <;> rw [hc]
    · exact hx
    · exact List.mem_append_left _ hx

/-! ### Uniqueness of ledger keys through the pass -/

theorem keys_mark_returned (L : Ledger) (id : Nat) :
    (mark_order_returned_from_no_product L id).2.map ProcessedOrderRecord.order_id
      = L.map ProcessedOrderRecord.order_id := by
  unfold mark_order_returned_from_no_product
  rw [List.map_map]
  apply List.map_congr_left
  intro r _
  simp only [Function.comp_apply]
  exact mark_returned_key_fun id r

theorem keys_nodup_filter (L : Ledger) (p : ProcessedOrderRecord → Bool)
    (h : (L.map ProcessedOrderRecord.order_id).Nodup) :
    ((L.filter p).map ProcessedOrderRecord.order_id).Nodup :=
  List.Nodup.sublist (List.Sublist.map _ (List.filter_sublist L)) h

theorem keys_nodup_reset (L : Ledger) (id : Nat)
    (h : (L.map ProcessedOrderRecord.order_id).Nodup) :
    ((reset_order_for_renotification L id).2.map ProcessedOrderRecord.order_id).Nodup := by
  rcases reset_snd_cases L id with hc | hc <;> rw [hc]
  · exact h
  · exact keys_nodup_filter L _ h

theorem keys_nodup_step (cfg : MonitorConfig) (live : Nat → Option Order)
    (acc : Ledger × List Order) (row : ProcessedOrderRecord)
    (h : (acc.1.map ProcessedOrderRecord.order_id).Nodup) :
    ((check_returned_step cfg live acc row).1.map ProcessedOrderRecord.order_id).Nodup := by
  by_cases hel : returnEligible cfg live row = true
  · obtain ⟨hw, hr, cur, hl, hs⟩ := returnEligible_decomp cfg live row hel
    rw [check_returned_step_act cfg live acc row cur hw hr hl hs]
    show (((reset_order_for_renotification
        (mark_order_returned_from_no_product acc.1 row.order_id).2 row.order_id).2).map
          ProcessedOrderRecord.order_id).Nodup
    apply keys_nodup_reset
    rw [keys_mark_returned]
    exact h
  · rw [check_returned_step_skip cfg live acc row (by simpa using hel)]
    exact h

theorem keys_nodup_foldl (cfg : MonitorConfig) (live : Nat → Option Order) :
    ∀ (rows : List ProcessedOrderRecord) (acc : Ledger × List Order),
      (acc.1.map ProcessedOrderRecord.order_id).Nodup →
      ((rows.foldl (check_returned_step cfg live) acc).1.map ProcessedOrderRecord.order_id).Nodup := by
  intro rows
  induction rows with
  | nil => intro acc h; exact h
  | cons q rows2 ih =>
    intro acc h
    rw [List.foldl_cons]
    exact ih _ (keys_nodup_step cfg live acc q h)

theorem keys_nodup_save (L : Ledger) (id : Nat) (n s : String) (dt : Option String)
    (ts : Option Int) (cn wc : Option String)
    (h : (L.map ProcessedOrderRecord.order_id).Nodup) :
    ((save_processed_order L id n s dt ts cn wc).map ProcessedOrderRecord.order_id).Nodup := by
  unfold save_processed_order
  rw [List.map_append, List.nodup_append]
  refine ⟨keys_nodup_filter L _ h, List.nodup_singleton _, ?_⟩
  intro a ha hb
  have hb2 : a = id := by simpa using hb
  obtain ⟨r, hr, hkey⟩ := List.mem_map.mp ha
  have hfil := (List.mem_filter.mp hr).2
  rw [hkey] at hfil
  rw [hb2] at hfil
  simp at hfil

/-! ### The dispatch loop -/

theorem process_new_orders_cons (cfg : MonitorConfig)
    (outc : Nat → Nat → SendAttempt × SendAttempt × SendAttempt)
    (images : Nat → Bool) (L : Ledger) (o : Order) (rest : List Order) (k : Nat) :
    process_new_orders cfg outc images L (o :: rest) k =
      (o.id :: (process_new_orders cfg outc images
          (save_processed_order L o.id o.number cfg.targetStatus o.deliveryCode
            o.totalSumm none o.shipmentStore) rest (k + 1)).1,
       (process_new_orders cfg outc images
          (save_processed_order L o.id o.number cfg.targetStatus o.deliveryCode
            o.totalSumm none o.shipmentStore) rest (k + 1)).2) := rfl

theorem process_new_orders_ids (cfg : MonitorConfig)
    (outc : Nat → Nat → SendAttempt × SendAttempt × SendAttempt)
    (images : Nat → Bool) :
    ∀ (os : List Order) (L : Ledger) (k : Nat),
      (process_new_orders cfg outc images L os k).1 = os.map Order.id := by
  intro os
  induction os with
  | nil => intro L k; rfl
  | cons o rest ih =>
    intro L k
    rw [process_new_orders_cons, List.map_cons]
    rw [ih]

theorem process_new_orders_lookup_no_id (cfg : MonitorConfig)
    (outc : Nat → Nat → SendAttempt × SendAttempt × SendAttempt)
    (images : Nat → Bool) :
    ∀ (os : List Order) (L : Ledger) (k id : Nat),
      (∀ o ∈ os, o.id ≠ id) →
      db_lookup (process_new_orders cfg outc images L os k).2 id = db_lookup L id := by
  intro os
  induction os with
  | nil => intro L k id h; rfl
  | cons o rest ih =>
    intro L k id h
    rw [process_new_orders_cons]
    show db_lookup (process_new_orders cfg outc images _ rest (k + 1)).2 id = _
    rw [ih _ _ _ (fun o2 h2 => h o2 (List.mem_cons_of_mem _ h2))]
    exact db_lookup_save_other L o.id id (Ne.symm (h o (List.mem_cons_self _ _))) _ _ _ _ _ _

theorem process_new_orders_lookup_mem (cfg : MonitorConfig)
    (outc : Nat → Nat → SendAttempt × SendAttempt × SendAttempt)
    (images : Nat → Bool) :
    ∀ (os : List Order) (L : Ledger) (k id : Nat),
      (∃ o ∈ os, o.id = id) →
      ∃ r, db_lookup (process_new_orders cfg outc images L os k).2 id = some r
        ∧ r.was_in_no_product = false ∧ r.returned_from_no_product = false := by
  intro os
  induction os with
  | nil =>
    rintro L k id ⟨o, ho, -⟩
    cases ho
  | cons o rest ih =>
    intro L k id hex
    by_cases hrest : ∃ o2 ∈ rest, o2.id = id
    · rw [process_new_orders_cons]
      obtain ⟨r, hr, hflags⟩ := ih _ (k + 1) id hrest
      exact ⟨r, hr, hflags⟩
    · have ho : o.id = id := by
        rcases hex with ⟨o2, ho2, he2⟩
        rcases List.mem_cons.mp ho2 with rfl | hmem
        · exact he2
        · exact absurd ⟨o2, hmem, he2⟩ hrest
      have hnorest : ∀ o2 ∈ rest, o2.id ≠ id := fun o2 h2 he2 => hrest ⟨o2, h2, he2⟩
      rw [process_new_orders_cons]
      show ∃ r, db_lookup (process_new_orders cfg outc images _ rest (k + 1)).2 id = some r ∧ _
      rw [process_new_orders_lookup_no_id cfg outc images rest _ _ _ hnorest]
      rw [← ho]
      exact ⟨_, db_lookup_save_same L o.id o.number cfg.targetStatus o.deliveryCode
        o.totalSumm none o.shipmentStore, rfl, rfl⟩

theorem keys_nodup_process (cfg : MonitorConfig)
    (outc : Nat → Nat → SendAttempt × SendAttempt × SendAttempt)
    (images : Nat → Bool) :
    ∀ (os : List Order) (L : Ledger) (k : Nat),
      (L.map ProcessedOrderRecord.order_id).Nodup →
      ((process_new_orders cfg outc images L os k).2.map ProcessedOrderRecord.order_id).Nodup := by
  intro os
  induction os with
  | nil => intro L k h; exact h
  | cons o rest ih =>
    intro L k h
    rw [process_new_orders_cons]
    exact ih _ (k + 1) (keys_nodup_save L o.id _ _ _ _ _ _ h)

/-! ### C1 — idempotent notification -/

theorem db_lookup_unique (L : Ledger) (id : Nat) (q r : ProcessedOrderRecord)
    (hnd : (L.map ProcessedOrderRecord.order_id).Nodup) (hq : q ∈ L)
    (hkey : q.order_id = id) (hfind : db_lookup L id = some r) : q = r := by
  have h1 := db_lookup_eq_some_of_mem_nodup hnd hq
  rw [hkey, hfind] at h1
  exact Option.some.inj h1.symm

theorem pass_skips_processed (cfg : MonitorConfig) (L : Ledger) (page : List Order)
    (live : Nat → Option Order)
    (outc : Nat → Nat → SendAttempt × SendAttempt × SendAttempt)
    (images : Nat → Bool) (id : Nat) (r : ProcessedOrderRecord)
    (hnd : (L.map ProcessedOrderRecord.order_id).Nodup)
    (hfind : db_lookup L id = some r)
    (hel : returnEligible cfg live r = false) :
    id ∉ (check_orders_with_status cfg L page live outc images).1
    ∧ db_lookup (check_orders_with_status cfg L page live outc images).2 id = some r := by
  have hall : ∀ q ∈ L, q.order_id = id → returnEligible cfg live q = false := by
    intro q hq hkey
    rw [db_lookup_unique L id q r hnd hq hkey hfind]
    exact hel
  have hL1 : db_lookup (check_orders_returned_from_no_product cfg L live).1 id = some r := by
    unfold check_orders_returned_from_no_product get_all_processed_orders
    rw [check_returned_foldl_lookup cfg live L id (L, []) hall]
    exact hfind
  have hproc : is_order_processed (check_orders_returned_from_no_product cfg L live).1 id = true :=
    is_order_processed_of_lookup hL1
  have hnew : ∀ o ∈ (get_orders_by_status page cfg.targetStatus
        ++ (check_orders_returned_from_no_product cfg L live).2).filter
        (fun o => !(is_order_processed (check_orders_returned_from_no_product cfg L live).1 o.id)),
      o.id ≠ id := by
    intro o ho he
    have hfil := (List.mem_filter.mp ho).2
    rw [he, hproc] at hfil
    simp at hfil
  constructor
  · show id ∉ (process_new_orders cfg outc images _ _ 0).1
    rw [process_new_orders_ids]
    intro hmem
    obtain ⟨o, ho, he⟩ := List.mem_map.mp hmem
    exact hnew o ho he
  · show db_lookup (process_new_orders cfg outc images _ _ 0).2 id = some r
    rw [process_new_orders_lookup_no_id cfg outc images _ _ _ _ hnew]
    exact hL1

theorem keys_nodup_pass (cfg : MonitorConfig) (L : Ledger) (page : List Order)
    (live : Nat → Option Order)
    (outc : Nat → Nat → SendAttempt × SendAttempt × SendAttempt)
    (images : Nat → Bool)
    (h : (L.map ProcessedOrderRecord.order_id).Nodup) :
    ((check_orders_with_status cfg L page live outc images).2.map
      ProcessedOrderRecord.order_id).Nodup := by
  show ((process_new_orders cfg outc images _ _ 0).2.map ProcessedOrderRecord.order_id).Nodup
  apply keys_nodup_process
  exact keys_nodup_foldl cfg live L (L, []) h

theorem pass_notifies_at_most_once (cfg : MonitorConfig) (L : Ledger)
    (p1 : List Order) (l1 : Nat → Option Order)
    (o1 : Nat → Nat → SendAttempt × SendAttempt × SendAttempt) (i1 : Nat → Bool)
    (p2 : List Order) (l2 : Nat → Option Order)
    (o2 : Nat → Nat → SendAttempt × SendAttempt × SendAttempt) (i2 : Nat → Bool)
    (id : Nat)
    (hnd : (L.map ProcessedOrderRecord.order_id).Nodup)
    (hmem : id ∈ (check_orders_with_status cfg L p1 l1 o1 i1).1) :
    id ∉ (check_orders_with_status cfg
        (check_orders_with_status cfg L p1 l1 o1 i1).2 p2 l2 o2 i2).1 := by
  rw [show (check_orders_with_status cfg L p1 l1 o1 i1).1
      = ((get_orders_by_status p1 cfg.targetStatus
          ++ (check_orders_returned_from_no_product cfg L l1).2).filter
          (fun o => !(is_order_processed
            (check_orders_returned_from_no_product cfg L l1).1 o.id))).map Order.id
    from process_new_orders_ids cfg o1 i1 _ _ 0] at hmem
  obtain ⟨o, ho, he⟩ := List.mem_map.mp hmem
  obtain ⟨r2, hr2, hw, hret⟩ := process_new_orders_lookup_mem cfg o1 i1 _
    (check_orders_returned_from_no_product cfg L l1).1 0 id ⟨o, ho, he⟩
  have hnd1 : ((check_orders_with_status cfg L p1 l1 o1 i1).2.map
      ProcessedOrderRecord.order_id).Nodup := keys_nodup_pass cfg L p1 l1 o1 i1 hnd
  have hel : returnEligible cfg l2 r2 = false := by
    simp [returnEligible, hw]
  exact (pass_skips_processed cfg _ p2 l2 o2 i2 id r2 hnd1 hr2 hel).1

/-- Config, row, live order for the C1 counterexample. -/
def c1_cfg : MonitorConfig :=
  { targetStatus := "target-status", statusReturned := "returned-status",
    admins := [{ user_id := "100", warehouse := "20", chat_id := "100" }] }

/-- A ledger row flagged `was_in_no_product`, not yet returned. -/
def c1_row : ProcessedOrderRecord :=
  { order_id := 1, order_number := "N1", status := "target-status", total_sum := none,
    customer_name := none, warehouse_code := some "20", delivery_type := none,
    was_in_no_product := true, returned_from_no_product := false,
    bouquet_ready_notified := false }

/-- The same order as freshly fetched: its live status equals the returned
code. -/
def c1_order : Order :=
  { id := 1, number := "N1", status := "returned-status", shipmentStore := some "20",
    deliveryCode := none, totalSumm := none }

def c1_live : Nat → Option Order := fun oid => if oid = 1 then some c1_order else none

/-- Send outcomes where every send succeeds. -/
def quiet_sends : Nat → Nat → SendAttempt × SendAttempt × SendAttempt :=
  fun _ _ => (none, none, none)

/-- C1 counterexample: order 1 is recorded in the ledger
(`is_order_processed` is true), yet one run of the detection + dispatch pass
notifies it, because its row is flagged `was_in_no_product` and its live
status equals the returned code, so the pass deletes the row and re-notifies.
The claim's universal "already recorded ⇒ no notification, no write" is
therefore false as stated. -/
theorem notified_despite_is_processed :
    is_order_processed [c1_row] 1 = true
    ∧ 1 ∈ (check_orders_with_status c1_cfg [c1_row] [] c1_live quiet_sends
        (fun _ => false)).1 := by
  exact ⟨rfl, by decide⟩

/-- C1 amended: (i) an order_id recorded in the ledger whose row does NOT
qualify for the no-product return path (not flagged, already returned, or its
live status differs from the returned code) is neither notified nor has its
row touched by one pass; (ii) hence across two consecutive passes with the
ledger carried over, an order notified by the first pass is never notified by
the second — each order is notified at most once — because the pass records
every notified order with both no-product flags zeroed. -/
theorem check_orders_pass_idempotent :
    (∀ (cfg : MonitorConfig) (L : Ledger) (page : List Order)
        (live : Nat → Option Order)
        (outc : Nat → Nat → SendAttempt × SendAttempt × SendAttempt)
        (images : Nat → Bool) (id : Nat) (r : ProcessedOrderRecord),
        (L.map ProcessedOrderRecord.order_id).Nodup →
        db_lookup L id = some r →
        returnEligible cfg live r = false →
        id ∉ (check_orders_with_status cfg L page live outc images).1
        ∧ db_lookup (check_orders_with_status cfg L page live outc images).2 id = some r)
    ∧ (∀ (cfg : MonitorConfig) (L : Ledger) (p1 : List Order)
        (l1 : Nat → Option Order)
        (o1 : Nat → Nat → SendAttempt × SendAttempt × SendAttempt) (i1 : Nat → Bool)
        (p2 : List Order) (l2 : Nat → Option Order)
        (o2 : Nat → Nat → SendAttempt × SendAttempt × SendAttempt) (i2 : Nat → Bool)
        (id : Nat),
        (L.map ProcessedOrderRecord.order_id).Nodup →
        id ∈ (check_orders_with_status cfg L p1 l1 o1 i1).1 →
        id ∉ (check_orders_with_status cfg
            (check_orders_with_status cfg L p1 l1 o1 i1).2 p2 l2 o2 i2).1) :=
  ⟨fun cfg L page live outc images id r hnd hfind hel =>
      pass_skips_processed cfg L page live outc images id r hnd hfind hel,
   fun cfg L p1 l1 o1 i1 p2 l2 o2 i2 id hnd hmem =>
      pass_notifies_at_most_once cfg L p1 l1 o1 i1 p2 l2 o2 i2 id hnd hmem⟩

/-- A recorded row that does not qualify for the return path. -/
def c1w_row : ProcessedOrderRecord :=
  { order_id := 2, order_number := "N2", status := "target-status", total_sum := none,
    customer_name := none, warehouse_code := some "20", delivery_type := none,
    was_in_no_product := false, returned_from_no_product := false,
    bouquet_ready_notified := false }

/-- A fresh order sitting at the target status. -/
def c1_target_order : Order :=
  { id := 1, number := "N1", status := "target-status", shipmentStore := some "20",
    deliveryCode := none, totalSumm := none }

theorem check_orders_pass_idempotent_witness :
    (2 ∉ (check_orders_with_status c1_cfg [c1w_row] [] c1_live quiet_sends
        (fun _ => false)).1
      ∧ db_lookup (check_orders_with_status c1_cfg [c1w_row] [] c1_live quiet_sends
          (fun _ => false)).2 2 = some c1w_row)
    ∧ 1 ∉ (check_orders_with_status c1_cfg
        (check_orders_with_status c1_cfg [] [c1_target_order] c1_live quiet_sends
          (fun _ => false)).2
        [c1_target_order] c1_live quiet_sends (fun _ => false)).1 := by
  constructor
  · exact check_orders_pass_idempotent.1 c1_cfg [c1w_row] [] c1_live quiet_sends
      (fun _ => false) 2 c1w_row (by decide) (by decide) (by decide)
  · exact check_orders_pass_idempotent.2 c1_cfg [] [c1_target_order] c1_live quiet_sends
      (fun _ => false) [c1_target_order] c1_live quiet_sends (fun _ => false) 1
      (by decide) (by decide)

/-! ### C3 — no-product round trip -/

/-- C3: for a ledger row (unique keys, and the backend returns orders
carrying the id they were fetched by):
(a) the mark operation the pass performs sets `returned_from_no_product` on
    the stored row (stated for any database state, since the pass applies it
    before the delete);
(b,c) when the row is flagged `was_in_no_product`, not yet returned, and its
    freshly fetched live status equals the returned code, one detection pass
    deletes the row (lookup afterwards is `none`) and yields the live order
    in its returned-candidates list exactly once;
and a row with `was_in_no_product = false`, or `returned_from_no_product =
true`, or whose live status differs (including fetch failure), is left
untouched and not yielded. -/
theorem no_product_round_trip :
    ∀ (cfg : MonitorConfig) (live : Nat → Option Order) (L : Ledger)
      (r : ProcessedOrderRecord),
      (L.map ProcessedOrderRecord.order_id).Nodup → liveWF live → r ∈ L →
      ((∀ (M : Ledger) (r2 : ProcessedOrderRecord),
          db_lookup M r.order_id = some r2 →
          db_lookup (mark_order_returned_from_no_product M r.order_id).2 r.order_id =
            some { r2 with returned_from_no_product := true })
       ∧ (∀ cur, returnEligible cfg live r = true → live r.order_id = some cur →
            db_lookup (check_orders_returned_from_no_product cfg L live).1 r.order_id = none
            ∧ cur ∈ (check_orders_returned_from_no_product cfg L live).2
            ∧ (check_orders_returned_from_no_product cfg L live).2.countP
                (fun o => o.id == r.order_id) = 1)
       ∧ (returnEligible cfg live r = false →
            db_lookup (check_orders_returned_from_no_product cfg L live).1 r.order_id = some r
            ∧ ∀ o ∈ (check_orders_returned_from_no_product cfg L live).2,
                o.id ≠ r.order_id)) := by
  intro cfg live L r hnd hlw hr
  refine ⟨fun M r2 h => db_lookup_mark_returned_same M r.order_id r2 h, ?_, ?_⟩
  · intro cur hel hl
    obtain ⟨hw, hret, cur2, hl2, hs2⟩ := returnEligible_decomp cfg live r hel
    rw [hl] at hl2
    injection hl2 with hcur
    rw [← hcur] at hs2
    obtain ⟨pre, post, hL⟩ := List.append_of_mem hr
    subst hL
    have hndk := hnd
    rw [List.map_append, List.map_cons, List.nodup_append] at hndk
    obtain ⟨hpreN, hconsN, hdisj⟩ := hndk
    rw [List.nodup_cons] at hconsN
    have hpre : ∀ q ∈ pre, q.order_id ≠ r.order_id := by
      intro q hq he
      exact hdisj (List.mem_map_of_mem _ hq) (he ▸ List.mem_cons_self _ _)
    have hpost : ∀ q ∈ post, q.order_id ≠ r.order_id := by
      intro q hq he
      exact hconsN.1 (he ▸ List.mem_map_of_mem _ hq)
    unfold check_orders_returned_from_no_product get_all_processed_orders
    rw [List.foldl_append, List.foldl_cons]
    have hlookA : db_lookup
        (List.foldl (check_returned_step cfg live) (pre ++ r :: post, []) pre).1
        r.order_id = some r := by
      rw [check_returned_foldl_lookup cfg live pre r.order_id _
        (fun q hq hk => absurd hk (hpre q hq))]
      exact db_lookup_eq_some_of_mem_nodup hnd
        (List.mem_append_right _ (List.mem_cons_self _ _))
    rw [check_returned_step_act cfg live _ r cur hw hret hl hs2]
    have hmark : db_lookup (mark_order_returned_from_no_product
        (List.foldl (check_returned_step cfg live) (pre ++ r :: post, []) pre).1
        r.order_id).2 r.order_id = some { r with returned_from_no_product := true } :=
      db_lookup_mark_returned_same _ _ _ hlookA
    have hdel := reset_deletes _ r.order_id _ hmark hw
    refine ⟨?_, ?_, ?_⟩
    · rw [check_returned_foldl_lookup cfg live post r.order_id _
        (fun q hq hk => absurd hk (hpost q hq))]
      show db_lookup (reset_order_for_renotification
        (mark_order_returned_from_no_product _ r.order_id).2 r.order_id).2 r.order_id = none
      rw [hdel]
      exact db_lookup_filter_self _ _
    · apply check_returned_foldl_outputs_sub
      show cur ∈ (List.foldl (check_returned_step cfg live) (pre ++ r :: post, []) pre).2 ++ [cur]
      exact List.mem_append_right _ (List.mem_cons_self _ _)
    · rw [check_returned_foldl_countP cfg live hlw post r.order_id _
        (fun q hq hk => absurd hk (hpost q hq))]
      show ((List.foldl (check_returned_step cfg live) (pre ++ r :: post, []) pre).2
          ++ [cur]).countP (fun o => o.id == r.order_id) = 1
      rw [List.countP_append]
      have hA2 : (List.foldl (check_returned_step cfg live) (pre ++ r :: post, []) pre).2.countP
          (fun o => o.id == r.order_id) = 0 := by
        rw [check_returned_foldl_countP cfg live hlw pre r.order_id _
          (fun q hq hk => absurd hk (hpre q hq))]
        rfl
      rw [hA2]
      have hcid : cur.id = r.order_id := hlw _ _ hl
      simp [List.countP_cons, hcid]
  · intro hel
    have hall : ∀ q ∈ L, q.order_id = r.order_id → returnEligible cfg live q = false := by
      intro q hq hk
      rw [db_lookup_unique L r.order_id q r hnd hq hk
        (db_lookup_eq_some_of_mem_nodup hnd hr)]
      exact hel
    have hcount : (check_orders_returned_from_no_product cfg L live).2.countP
        (fun o => o.id == r.order_id) = 0 := by
      unfold check_orders_returned_from_no_product get_all_processed_orders
      rw [check_returned_foldl_countP cfg live hlw L r.order_id (L, []) hall]
      rfl
    refine ⟨?_, ?_⟩
    · unfold check_orders_returned_from_no_product get_all_processed_orders
      rw [check_returned_foldl_lookup cfg live L r.order_id (L, []) hall]
      exact db_lookup_eq_some_of_mem_nodup hnd hr
    · intro o ho he
      have hpos : 0 < (check_orders_returned_from_no_product cfg L live).2.countP
          (fun o2 => o2.id == r.order_id) :=
        List.countP_pos_iff.mpr ⟨o, ho, by simp [he]⟩
      omega

theorem c1_live_wf : liveWF c1_live := by
  intro oid o h
  unfold c1_live at h
  by_cases he : oid = 1
  · subst he
    simp only [if_pos rfl] at h
    injection h with h2
    rw [← h2]
    rfl
  · rw [if_neg he] at h
    cases h

theorem no_product_round_trip_witness :
    db_lookup (check_orders_returned_from_no_product c1_cfg [c1_row] c1_live).1 1 = none
    ∧ c1_order ∈ (check_orders_returned_from_no_product c1_cfg [c1_row] c1_live).2
    ∧ (check_orders_returned_from_no_product c1_cfg [c1_row] c1_live).2.countP
        (fun o => o.id == 1) = 1
    ∧ db_lookup (check_orders_returned_from_no_product c1_cfg [c4_row6] c1_live).1 6
        = some c4_row6 := by
  have h := (no_product_round_trip c1_cfg c1_live [c1_row] c1_row (by decide)
    c1_live_wf (by decide)).2.1 c1_order (by decide) (by decide)
  have h2 := (no_product_round_trip c1_cfg c1_live [c4_row6] c4_row6 (by decide)
    c1_live_wf (by decide)).2.2 (by decide)
  exact ⟨h.1, h.2.1, h.2.2, h2.1⟩

/-! ### C9 — partial dispatch failure isolation -/

theorem recipient_delivered_ok (hasImages : Bool)
    (o : SendAttempt × SendAttempt × SendAttempt) (h : o.1 = none) :
    recipient_delivered hasImages o = true := by
  obtain ⟨o1, o2, o3⟩ := o
  simp only at h
  subst h
  rfl

theorem fan_out_fst :
    ∀ (admins : List (String × String))
      (outc : Nat → SendAttempt × SendAttempt × SendAttempt) (hasImages : Bool) (k : Nat),
      (fan_out admins outc hasImages k).1 = admins := by
  intro admins
  induction admins with
  | nil => intro outc hasImages k; rfl
  | cons a rest ih =>
    intro outc hasImages k
    show a :: (fan_out rest outc hasImages (k + 1)).1 = a :: rest
    rw [ih]

theorem fan_out_delivered_mem :
    ∀ (admins : List (String × String))
      (outc : Nat → SendAttempt × SendAttempt × SendAttempt) (hasImages : Bool)
      (k i : Nat) (hlt : i < admins.length),
      recipient_delivered hasImages (outc (k + i)) = true →
      admins.get ⟨i, hlt⟩ ∈ (fan_out admins outc hasImages k).2 := by
  intro admins
  induction admins with
  | nil =>
    intro outc hasImages k i hlt
    exact absurd hlt (by simp)
  | cons a rest ih =>
    intro outc hasImages k i hlt hdel
    cases i with
    | zero =>
      have h0 : recipient_delivered hasImages (outc k) = true := by
        simpa using hdel
      show a ∈ (fan_out (a :: rest) outc hasImages k).2
      show a ∈ (if recipient_delivered hasImages (outc k)
        then a :: (fan_out rest outc hasImages (k + 1)).2
        else (fan_out rest outc hasImages (k + 1)).2)
      rw [if_pos h0]
      exact List.mem_cons_self _ _
    | succ i2 =>
      have hlt2 : i2 < rest.length := by simpa using hlt
      have hdel2 : recipient_delivered hasImages (outc ((k + 1) + i2)) = true := by
        have harith : (k + 1) + i2 = k + (i2 + 1) := by omega
        rw [harith]
        exact hdel
      have hmem := ih outc hasImages (k + 1) i2 hlt2 hdel2
      show rest.get ⟨i2, hlt2⟩ ∈ (if recipient_delivered hasImages (outc k)
        then a :: (fan_out rest outc hasImages (k + 1)).2
        else (fan_out rest outc hasImages (k + 1)).2)
      by_cases hd : recipient_delivered hasImages (outc k) = true
      · rw [if_pos hd]
        exact List.mem_cons_of_mem _ hmem
      · rw [if_neg hd]
        exact hmem

/-- C9: when the order carries a shipment warehouse, one fan-out attempts the
send for EVERY recipient mapped to that warehouse, in order, whatever each
recipient's outcome is (each failure class is caught inside that recipient's
loop iteration); a recipient whose own first send succeeds receives the
message regardless of the other recipients' failures; and the per-order step
still records the order in the processed-orders ledger after the fan-out, for
every combination of send outcomes. -/
theorem partial_dispatch_isolation (cfg : MonitorConfig) (L : Ledger) (o : Order)
    (wh : String) (hasImages : Bool)
    (outc : Nat → SendAttempt × SendAttempt × SendAttempt)
    (h : o.shipmentStore = some wh) :
    (send_notification_to_warehouse_admins cfg o hasImages outc).1 =
      get_admins_for_warehouse cfg wh
    ∧ (∀ i (hi : i < (get_admins_for_warehouse cfg wh).length),
        (outc i).1 = none →
        (get_admins_for_warehouse cfg wh).get ⟨i, hi⟩ ∈
          (send_notification_to_warehouse_admins cfg o hasImages outc).2)
    ∧ is_order_processed (process_one_order cfg L o hasImages outc).2 o.id = true := by
  have hsend : send_notification_to_warehouse_admins cfg o hasImages outc =
      fan_out (get_admins_for_warehouse cfg wh) outc hasImages 0 := by
    unfold send_notification_to_warehouse_admins
    rw [h]
  refine ⟨?_, ?_, ?_⟩
  · rw [hsend, fan_out_fst]
  · intro i hi hok
    rw [hsend]
    apply fan_out_delivered_mem _ outc hasImages 0 i hi
    have harith : (0 : Nat) + i = i := by omega
    rw [harith]
    exact recipient_delivered_ok hasImages (outc i) hok
  · show is_order_processed (save_processed_order L o.id o.number cfg.targetStatus
      o.deliveryCode o.totalSumm none o.shipmentStore) o.id = true
    exact is_order_processed_of_lookup (db_lookup_save_same L o.id o.number
      cfg.targetStatus o.deliveryCode o.totalSumm none o.shipmentStore)

/-- Three admins on warehouse 20 for the C9 witness. -/
def c9_cfg : MonitorConfig :=
  { targetStatus := "target-status", statusReturned := "returned-status",
    admins := [{ user_id := "10", warehouse := "20", chat_id := "10" },
               { user_id := "11", warehouse := "20", chat_id := "11" },
               { user_id := "12", warehouse := "20", chat_id := "12" }] }

/-- Recipient 2 (index 1) is unreachable (`TelegramForbiddenError`); the
others succeed. -/
def c9_outc : Nat → SendAttempt × SendAttempt × SendAttempt := fun i =>
  if i = 1 then (some TgSendError.forbidden, none, none) else (none, none, none)

def c9_order : Order :=
  { id := 5, number := "N5", status := "target-status", shipmentStore := some "20",
    deliveryCode := none, totalSumm := none }

theorem partial_dispatch_isolation_witness :
    (send_notification_to_warehouse_admins c9_cfg c9_order false c9_outc).1 =
      get_admins_for_warehouse c9_cfg "20"
    ∧ ("10", "10") ∈ (send_notification_to_warehouse_admins c9_cfg c9_order false c9_outc).2
    ∧ ("12", "12") ∈ (send_notification_to_warehouse_admins c9_cfg c9_order false c9_outc).2
    ∧ is_order_processed (process_one_order c9_cfg [] c9_order false c9_outc).2 5 = true := by
  have h := partial_dispatch_isolation c9_cfg [] c9_order "20" false c9_outc rfl
  refine ⟨h.1, ?_, ?_, h.2.2⟩
  · exact h.2.1 0 (by decide) (by decide)
  · exact h.2.1 2 (by decide) (by decide)

end TgBotGbc
